import Mathlib

/-!
# TUNConfigurator_Illumos.c

A shallow embedding of `interface/TUNConfigurator_Illumos.c` (cjdns): the netmask helper
`maskForPrefix` and the provisioning routine `TUNConfigurator_configure`, run against a
recording model of the kernel interface (`open`, `ioctl`, `close`, `errno`).
-/

namespace TUNConfigurator

/-! ## `maskForPrefix` -/

/-- Ways in which the model of a C fragment can fail to produce a value. -/
inductive Fault
  | outOfFuel
  | undefinedShift
  deriving DecidableEq, Repr

/-- The C expression `a << s` on 32-bit `int` operands. The result is undefined (`none`) when
the left operand is negative, when the shift amount is negative or at least the width of `int`,
or when `a * 2^s` is not representable in `int`. -/
def shiftLeftInt (a s : Int) : Option Int :=
  if 0 ≤ a ∧ 0 ≤ s ∧ s < 32 ∧ a * 2 ^ s.toNat < 2 ^ 31 then some (a * 2 ^ s.toNat) else none

/-- One evaluation of `0xff << (i + 8 - prefix)` at line 43: the loop index, the shift amount
and the byte that was stored into `mask[i]`. -/
structure ShiftEval where
  i : Int
  amount : Int
  written : Nat
  deriving DecidableEq, Repr

/-- The buffer `mask` together with the record of the shifts evaluated so far. -/
structure MaskRun where
  mask : List Nat
  shifts : List ShiftEval
  deriving DecidableEq, Repr

/-- The loop `for (int i = 0; i < 16; i += 8) { ... }` of `maskForPrefix` (lines 37-45),
entered with the current value of `i`. One unit of fuel is spent per evaluation of the loop
test. `mask[i] = v` is `List.set` at index `i`. -/
def maskForPrefix.loop (pfx : Int) : Nat → Int → MaskRun → Except Fault MaskRun
  | 0, _, _ => .error .outOfFuel
  | fuel + 1, i, run =>
    if i < 16 then
      if i + 8 ≤ pfx then
        maskForPrefix.loop pfx fuel (i + 8) { run with mask := run.mask.set i.toNat 0xff }
      else if i > pfx then
        maskForPrefix.loop pfx fuel (i + 8) { run with mask := run.mask.set i.toNat 0x00 }
      else
        match shiftLeftInt 0xff (i + 8 - pfx) with
        | none => .error .undefinedShift
        | some v =>
          let b := v.toNat &&& 0xff
          maskForPrefix.loop pfx fuel (i + 8)
            { mask := run.mask.set i.toNat b
              shifts := run.shifts ++ [{ i := i, amount := i + 8 - pfx, written := b }] }
    else
      .ok run

/-- The body of `maskForPrefix(mask, prefix)` with its record of shift evaluations. -/
def maskForPrefixRun (mask : List Nat) (pfx : Int) : Except Fault MaskRun :=
  maskForPrefix.loop pfx 16 0 { mask := mask, shifts := [] }

/-- The function `maskForPrefix(mask, prefix)` (lines 35-46): the content of the buffer after
the call, for a buffer of 16 bytes. The call always returns (`maskForPrefixRun_ok`), so the
fallback is never used. -/
def maskForPrefix (mask : List Nat) (pfx : Int) : List Nat :=
  match maskForPrefixRun mask pfx with
  | .ok run => run.mask
  | .error _ => mask

/-- Bit `k` (0 is the most significant bit of byte 0) of a buffer read as a big-endian
bit string. -/
def bitAt (mask : List Nat) (k : Nat) : Bool :=
  (mask.getD (k / 8) 0).testBit (7 - k % 8)

/-- A 16-byte buffer that reads as `p` one-bits followed by `128 - p` zero-bits. -/
def IsPrefixMask (mask : List Nat) (p : Nat) : Prop :=
  mask.length = 16 ∧ ∀ k, k < 128 → (bitAt mask k = true ↔ k < p)

/-! ## The kernel interface -/

/-- The `ioctl` request codes used by the file. -/
inductive Req
  | TUNSETPPA
  | TUNNEWPPA
  | I_SRDOPT
  | I_PUSH
  | SIOCSLIFNAME
  | SIOCSLIFNETMASK
  | SIOCSLIFADDR
  | I_LINK
  deriving DecidableEq, Repr

/-- The interface flag written to `lifr_flags`. -/
inductive IfFlag
  | IFF_IPV6
  deriving DecidableEq, Repr

/-- The address family written to `lifr_addr.ss_family`. -/
inductive Family
  | AF_INET6
  deriving DecidableEq, Repr

/-- The fields of `struct lifreq ifr` that the routine writes. `ss_family` is `none` while it
is still uninitialised; `sin6_addr` holds the 16 bytes of `lifr_addr`'s IPv6 address. The
fields are kept apart: that some of them share storage in the C union is not modelled. -/
structure Lifreq where
  lifr_name : String
  lifr_ppa : Int
  lifr_flags : IfFlag
  ss_family : Option Family
  sin6_addr : List Nat
  deriving DecidableEq, Repr

/-- The third argument of an `ioctl`. -/
inductive Arg
  | int (v : Int)
  | RMSGD
  | str (s : String)
  | lifreq (ifr : Lifreq)
  deriving DecidableEq, Repr

/-- A call into the kernel. -/
inductive Call
  | sys_open (path : String)
  | sys_ioctl (fd : Int) (req : Req) (arg : Arg)
  | sys_close (fd : Int)
  deriving DecidableEq, Repr

/-- A recorded kernel call: the call, the value it returned and the value of `errno` right
after it. -/
structure Event where
  call : Call
  ret : Int
  errno : Nat
  deriving DecidableEq, Repr

/-- What the kernel decides for one `open` or `ioctl`: success (with the non-negative value an
`ioctl` returns) or failure with an error code. -/
inductive Outcome
  | ok (ret : Nat)
  | fail (errno : Nat)
  deriving DecidableEq, Repr

/-- The error code of an operation on a descriptor that is not open. -/
def EBADF : Nat := 9

/-- A recording kernel. `plan i` is the outcome of the `i`-th `open`/`ioctl` issued (counted by
`issued`), so every such call can be made to fail independently of the others; `nextFd` is the
descriptor the next successful `open` returns; `openFds` are the descriptors currently open;
`errno` is the ambient error code, overwritten by every failing call; `log` records the calls
in the order they were issued. -/
structure Kernel where
  plan : Nat → Outcome
  issued : Nat
  nextFd : Nat
  openFds : List Int
  errno : Nat
  log : List Event

/-- A kernel at the start of a call, for a process whose descriptors `0 .. n-1` are open, so
that `n` is the lowest free descriptor. -/
def Kernel.boot (plan : Nat → Outcome) (n : Nat) (errno : Nat) : Kernel :=
  { plan := plan, issued := 0, nextFd := n,
    openFds := (List.range n).map Int.ofNat, errno := errno, log := [] }

/-- The system call `open(path, O_RDWR)`. -/
def Kernel.sys_open (k : Kernel) (path : String) : Int × Kernel :=
  match k.plan k.issued with
  | .fail e =>
    (-1, { k with issued := k.issued + 1, errno := e,
                  log := k.log ++ [{ call := .sys_open path, ret := -1, errno := e }] })
  | .ok _ =>
    (k.nextFd, { k with issued := k.issued + 1, nextFd := k.nextFd + 1,
                        openFds := k.openFds ++ [(k.nextFd : Int)],
                        log := k.log ++ [{ call := .sys_open path, ret := k.nextFd,
                                           errno := k.errno }] })

/-- The system call `ioctl(fd, req, arg)`. On a descriptor that is not open it fails with
`EBADF`, whatever the plan says. -/
def Kernel.sys_ioctl (k : Kernel) (fd : Int) (req : Req) (arg : Arg) : Int × Kernel :=
  if fd ∈ k.openFds then
    match k.plan k.issued with
    | .fail e =>
      (-1, { k with issued := k.issued + 1, errno := e,
                    log := k.log ++ [{ call := .sys_ioctl fd req arg, ret := -1, errno := e }] })
    | .ok r =>
      (r, { k with issued := k.issued + 1,
                   log := k.log ++ [{ call := .sys_ioctl fd req arg, ret := r,
                                      errno := k.errno }] })
  else
    (-1, { k with issued := k.issued + 1, errno := EBADF,
                  log := k.log ++ [{ call := .sys_ioctl fd req arg, ret := -1, errno := EBADF }] })

/-- The system call `close(fd)`. On a descriptor that is not open it fails with `EBADF`. -/
def Kernel.sys_close (k : Kernel) (fd : Int) : Int × Kernel :=
  if fd ∈ k.openFds then
    (0, { k with openFds := k.openFds.erase fd,
                 log := k.log ++ [{ call := .sys_close fd, ret := 0, errno := k.errno }] })
  else
    (-1, { k with errno := EBADF,
                  log := k.log ++ [{ call := .sys_close fd, ret := -1, errno := EBADF }] })

/-! ## `TUNConfigurator_configure` -/

/-- The C library predicate `isdigit`. -/
def isdigit (c : Char) : Bool :=
  decide ('0' ≤ c ∧ c ≤ '9')

/-- The C library predicate `isspace` in the C locale. -/
def isspace (c : Char) : Bool :=
  c.toNat = 32 || (9 ≤ c.toNat && c.toNat ≤ 13)

/-- The digit-accumulating part of `atoi`: stops at the first character that is not a digit. -/
def atoi.digits : List Char → Int → Int
  | [], acc => acc
  | c :: cs, acc =>
    if isdigit c then atoi.digits cs (acc * 10 + ((c.toNat : Int) - 48)) else acc

/-- The C library function `atoi`: skips leading white space, reads an optional sign and then
decimal digits up to the first other character. A value outside the range of `int` is
undefined in C and is not reduced here. -/
def atoi (s : List Char) : Int :=
  match s.dropWhile isspace with
  | '-' :: cs => - atoi.digits cs 0
  | '+' :: cs => atoi.digits cs 0
  | cs => atoi.digits cs 0

/-- How a call of `TUNConfigurator_configure` ends: it returns a handle, or `Except_raise` is
called (and does not return) with the format string `error` and the error code `err` whose
`strerror` text fills the `%s`. -/
inductive Result
  | returned (handle : Int)
  | raised (error : Option String) (err : Nat)
  deriving DecidableEq, Repr

/-- The four local variables that hold what the acquisition calls returned. -/
structure Handles where
  tunFd : Int
  ppa : Int
  ipFd : Int
  tunFd2 : Int
  deriving DecidableEq, Repr

/-- Lines 55-62: `ppa` stays 0 unless some character of the name is a digit, in which case
it is `atoi` of the whole name (assigned again at every digit). -/
def TUNConfigurator_configure.ppaOfName (interfaceName : Option String) : Int :=
  match interfaceName with
  | none => 0
  | some name =>
    name.toList.foldl (fun ppa c => if isdigit c then atoi name.toList else ppa) 0

/-- Lines 65-76: the control open, the instance-binding `ioctl`, the open of `/dev/ip6` and
the second open of `/dev/tun`, issued one after the other with no test in between. -/
def TUNConfigurator_configure.acquire (ppa0 : Int) (k0 : Kernel) : Handles × Kernel :=
  let r1 := k0.sys_open "/dev/tun"
  let r2 :=
    if ppa0 ≠ 0 then r1.2.sys_ioctl r1.1 .TUNSETPPA (.int ppa0)
    else r1.2.sys_ioctl r1.1 .TUNNEWPPA (.int (-1))
  let r3 := r2.2.sys_open "/dev/ip6"
  let r4 := r3.2.sys_open "/dev/tun"
  ({ tunFd := r1.1, ppa := r2.1, ipFd := r3.1, tunFd2 := r4.1 }, r4.2)

/-- Lines 79-82 and again 146-149: `int err = errno; close(tunFd); close(ipFd);
close(tunFd2);`. Returns the captured `err` and the kernel after the three closes. -/
def TUNConfigurator_configure.unwind (h : Handles) (k : Kernel) : Nat × Kernel :=
  let err := k.errno
  let c1 := k.sys_close h.tunFd
  let c2 := c1.2.sys_close h.ipFd
  let c3 := c2.2.sys_close h.tunFd2
  (err, c3.2)

/-- Lines 84-93: the choice of the message after the acquisition calls (`none` is `NULL`). -/
def TUNConfigurator_configure.acquireError (h : Handles) : Option String :=
  if h.tunFd < 0 then some "open(\"/dev/tun\") [%s]"
  else if h.ipFd < 0 then some "open(\"/dev/ip6\") [%s]"
  else if h.ppa < 0 then some "ioctl(TUNNEWPPA) [%s]"
  else if h.tunFd2 < 0 then some "open(\"/dev/tun\") (second time) [%s]"
  else none

/-- Lines 106-118: message-discard mode on `tunFd`, then `I_PUSH` and `SIOCSLIFNAME` on
`tunFd2`, as an `if / else if` chain. Returns the value of `error` (`none` is `NULL`). -/
def TUNConfigurator_configure.attach (h : Handles) (ifr : Lifreq) (k : Kernel) :
    Option String × Kernel :=
  let r5 := k.sys_ioctl h.tunFd .I_SRDOPT .RMSGD
  if r5.1 < 0 then (some "putting tun into message-discard mode [%s]", r5.2)
  else
    let r6 := r5.2.sys_ioctl h.tunFd2 .I_PUSH (.str "ip")
    if r6.1 < 0 then (some "ioctl(I_PUSH) [%s]", r6.2)
    else
      let r7 := r6.2.sys_ioctl h.tunFd2 .SIOCSLIFNAME (.lifreq ifr)
      if r7.1 < 0 then (some "ioctl(SIOCSLIFNAME) [%s]", r7.2)
      else (none, r7.2)

/-- Lines 120-133: `if (!error && address) { ... }`. The netmask is written into the address
bytes of `ifr` by `maskForPrefix`, the netmask `ioctl` is issued, the address is copied over
the same bytes, and the address `ioctl` is issued only if `error` is still `NULL`. -/
def TUNConfigurator_configure.assign (h : Handles) (ifr : Lifreq) (address : Option (List Nat))
    (prefixLen : Int) (error : Option String) (k : Kernel) : Option String × Kernel :=
  match error, address with
  | none, some addr =>
    let ifr1 : Lifreq :=
      { ifr with sin6_addr := maskForPrefix ifr.sin6_addr prefixLen,
                 ss_family := some .AF_INET6 }
    let r8 := k.sys_ioctl h.tunFd2 .SIOCSLIFNETMASK (.lifreq ifr1)
    let ifr2 : Lifreq := { ifr1 with sin6_addr := addr.take 16 }
    if r8.1 < 0 then (some "ioctl(SIOCSLIFNETMASK) (setting netmask) [%s]", r8.2)
    else
      let r9 := r8.2.sys_ioctl h.tunFd2 .SIOCSLIFADDR (.lifreq ifr2)
      if r9.1 < 0 then (some "ioctl(SIOCSLIFADDR) (setting ipv6 address) [%s]", r9.2)
      else (none, r9.2)
  | _, _ => (error, k)

/-- Lines 135-144: nothing is issued if `error` is set; otherwise `I_LINK` on `ipFd`. The
first component is `none` when the function returns `tunFd` at line 143, and `some error`
when control reaches line 146. -/
def TUNConfigurator_configure.link (h : Handles) (error : Option String) (k : Kernel) :
    Option (Option String) × Kernel :=
  match error with
  | some e => (some (some e), k)
  | none =>
    let r10 := k.sys_ioctl h.ipFd .I_LINK (.int h.tunFd2)
    if r10.1 < 0 then (some (some "ioctl(I_LINK) [%s]"), r10.2)
    else (none, r10.2)

/-- The function `TUNConfigurator_configure(interfaceName, address, prefixLen, logger, eh)`
(lines 48-155), run against the kernel `k0`. `junk` is the indeterminate initial content of the
address bytes of the stack variable `ifr`. The result is paired with the kernel state at the
moment the call returns or raises. -/
def TUNConfigurator_configure (junk : List Nat) (interfaceName : Option String)
    (address : Option (List Nat)) (prefixLen : Int) (k0 : Kernel) : Result × Kernel :=
  let a := TUNConfigurator_configure.acquire (TUNConfigurator_configure.ppaOfName interfaceName) k0
  let h := a.1
  -- lines 78-95
  if h.tunFd < 0 ∨ h.ipFd < 0 ∨ h.ppa < 0 ∨ h.tunFd2 < 0 then
    let u := TUNConfigurator_configure.unwind h a.2
    (.raised (TUNConfigurator_configure.acquireError h) u.1, u.2)
  else
    -- lines 100-103
    let ifr : Lifreq :=
      { lifr_name := "tun" ++ toString h.ppa, lifr_ppa := h.ppa, lifr_flags := .IFF_IPV6,
        ss_family := none, sin6_addr := junk }
    let s1 := TUNConfigurator_configure.attach h ifr a.2
    let s2 := TUNConfigurator_configure.assign h ifr address prefixLen s1.1 s1.2
    let s3 := TUNConfigurator_configure.link h s2.1 s2.2
    match s3.1 with
    | none => (.returned h.tunFd, s3.2)
    | some error =>
      -- lines 146-151
      let u := TUNConfigurator_configure.unwind h s3.2
      (.raised error u.1, u.2)

/-! ## Vocabulary for statements about a recorded run -/

/-- The event records an `ioctl` with request code `req`. -/
def Event.isIoctl (req : Req) (e : Event) : Bool :=
  match e.call with
  | .sys_ioctl _ r _ => decide (r = req)
  | _ => false

/-- The event records a `close`. -/
def Event.isClose (e : Event) : Bool :=
  match e.call with
  | .sys_close _ => true
  | _ => false

/-- The event records an `open` or an `ioctl`. -/
def Event.isOpenOrIoctl (e : Event) : Bool :=
  match e.call with
  | .sys_close _ => false
  | _ => true

/-- The event records an `open` or an `ioctl` that returned a negative value. -/
def Event.isFailure (e : Event) : Bool :=
  e.isOpenOrIoctl && decide (e.ret < 0)

/-- The descriptor a successful `open` returned, if the event records one. -/
def Event.openedFd (e : Event) : Option Int :=
  match e.call with
  | .sys_open _ => if 0 ≤ e.ret then some e.ret else none
  | _ => none

/-- The descriptors that were successfully opened in a log. -/
def openedFds (log : List Event) : List Int :=
  log.filterMap Event.openedFd

/-- The event records `close(fd)`. -/
def Event.closes (fd : Int) (e : Event) : Bool :=
  match e.call with
  | .sys_close d => decide (d = fd)
  | _ => false

/-- The number of `close(fd)` calls in a log. -/
def closeCount (log : List Event) (fd : Int) : Nat :=
  log.countP (Event.closes fd)

/-- Scanning the log from its start, no event satisfying `q` is met before an event
satisfying `p`: every `q`-event has a `p`-event earlier in the log. -/
def OnlyAfter (p q : Event → Bool) : List Event → Prop
  | [] => True
  | e :: rest => p e = true ∨ (q e = false ∧ OnlyAfter p q rest)

/-- Every event of the list is a `close`. -/
def ClosesOnly (log : List Event) : Prop :=
  ∀ e ∈ log, e.isClose = true

/-- After each failed `open` or `ioctl` of the log, only `close` calls follow. -/
def AbortsAtFirstFailure : List Event → Prop
  | [] => True
  | e :: rest => (e.isFailure = true → ClosesOnly rest) ∧ AbortsAtFirstFailure rest

/-- Every `open` and `ioctl` the plan decides succeeds. -/
def AllSucceed (plan : Nat → Outcome) : Prop :=
  ∀ i, ∃ r, plan i = .ok r

/-- The descriptors open in `k` are non-negative and below the next one to be handed out. -/
def Kernel.WellFormed (k : Kernel) : Prop :=
  ∀ x ∈ k.openFds, 0 ≤ x ∧ x < k.nextFd

/-! ## The shapes of a run -/

/-- The `ioctl` calls that can follow acquisition calls that all succeeded, on each path
through lines 106-144, with the value of `error` when control leaves line 144 (`none` on the
path that returns). Return values and error codes of the events are arbitrary, up to the sign
that selects the path. -/
inductive Provision (h : Handles) (ifr : Lifreq) (address : Option (List Nat)) :
    Option String → List Event → Prop
  | srdopt (r5 : Int) (e5 : Nat) : r5 < 0 →
      Provision h ifr address (some "putting tun into message-discard mode [%s]")
        [{ call := .sys_ioctl h.tunFd .I_SRDOPT .RMSGD, ret := r5, errno := e5 }]
  | push (r5 r6 : Int) (e5 e6 : Nat) : 0 ≤ r5 → r6 < 0 →
      Provision h ifr address (some "ioctl(I_PUSH) [%s]")
        [{ call := .sys_ioctl h.tunFd .I_SRDOPT .RMSGD, ret := r5, errno := e5 },
         { call := .sys_ioctl h.tunFd2 .I_PUSH (.str "ip"), ret := r6, errno := e6 }]
  | lifname (r5 r6 r7 : Int) (e5 e6 e7 : Nat) : 0 ≤ r5 → 0 ≤ r6 → r7 < 0 →
      Provision h ifr address (some "ioctl(SIOCSLIFNAME) [%s]")
        [{ call := .sys_ioctl h.tunFd .I_SRDOPT .RMSGD, ret := r5, errno := e5 },
         { call := .sys_ioctl h.tunFd2 .I_PUSH (.str "ip"), ret := r6, errno := e6 },
         { call := .sys_ioctl h.tunFd2 .SIOCSLIFNAME (.lifreq ifr), ret := r7, errno := e7 }]
  | netmask (a8 : Arg) (r5 r6 r7 r8 : Int) (e5 e6 e7 e8 : Nat) :
      address.isSome = true → 0 ≤ r5 → 0 ≤ r6 → 0 ≤ r7 → r8 < 0 →
      Provision h ifr address (some "ioctl(SIOCSLIFNETMASK) (setting netmask) [%s]")
        [{ call := .sys_ioctl h.tunFd .I_SRDOPT .RMSGD, ret := r5, errno := e5 },
         { call := .sys_ioctl h.tunFd2 .I_PUSH (.str "ip"), ret := r6, errno := e6 },
         { call := .sys_ioctl h.tunFd2 .SIOCSLIFNAME (.lifreq ifr), ret := r7, errno := e7 },
         { call := .sys_ioctl h.tunFd2 .SIOCSLIFNETMASK a8, ret := r8, errno := e8 }]
  | addr (a8 a9 : Arg) (r5 r6 r7 r8 r9 : Int) (e5 e6 e7 e8 e9 : Nat) :
      address.isSome = true → 0 ≤ r5 → 0 ≤ r6 → 0 ≤ r7 → 0 ≤ r8 → r9 < 0 →
      Provision h ifr address (some "ioctl(SIOCSLIFADDR) (setting ipv6 address) [%s]")
        [{ call := .sys_ioctl h.tunFd .I_SRDOPT .RMSGD, ret := r5, errno := e5 },
         { call := .sys_ioctl h.tunFd2 .I_PUSH (.str "ip"), ret := r6, errno := e6 },
         { call := .sys_ioctl h.tunFd2 .SIOCSLIFNAME (.lifreq ifr), ret := r7, errno := e7 },
         { call := .sys_ioctl h.tunFd2 .SIOCSLIFNETMASK a8, ret := r8, errno := e8 },
         { call := .sys_ioctl h.tunFd2 .SIOCSLIFADDR a9, ret := r9, errno := e9 }]
  | linkFailed (a8 a9 : Arg) (r5 r6 r7 r8 r9 r10 : Int) (e5 e6 e7 e8 e9 e10 : Nat) :
      address.isSome = true → 0 ≤ r5 → 0 ≤ r6 → 0 ≤ r7 → 0 ≤ r8 → 0 ≤ r9 → r10 < 0 →
      Provision h ifr address (some "ioctl(I_LINK) [%s]")
        [{ call := .sys_ioctl h.tunFd .I_SRDOPT .RMSGD, ret := r5, errno := e5 },
         { call := .sys_ioctl h.tunFd2 .I_PUSH (.str "ip"), ret := r6, errno := e6 },
         { call := .sys_ioctl h.tunFd2 .SIOCSLIFNAME (.lifreq ifr), ret := r7, errno := e7 },
         { call := .sys_ioctl h.tunFd2 .SIOCSLIFNETMASK a8, ret := r8, errno := e8 },
         { call := .sys_ioctl h.tunFd2 .SIOCSLIFADDR a9, ret := r9, errno := e9 },
         { call := .sys_ioctl h.ipFd .I_LINK (.int h.tunFd2), ret := r10, errno := e10 }]
  | linked (a8 a9 : Arg) (r5 r6 r7 r8 r9 r10 : Int) (e5 e6 e7 e8 e9 e10 : Nat) :
      address.isSome = true → 0 ≤ r5 → 0 ≤ r6 → 0 ≤ r7 → 0 ≤ r8 → 0 ≤ r9 → 0 ≤ r10 →
      Provision h ifr address none
        [{ call := .sys_ioctl h.tunFd .I_SRDOPT .RMSGD, ret := r5, errno := e5 },
         { call := .sys_ioctl h.tunFd2 .I_PUSH (.str "ip"), ret := r6, errno := e6 },
         { call := .sys_ioctl h.tunFd2 .SIOCSLIFNAME (.lifreq ifr), ret := r7, errno := e7 },
         { call := .sys_ioctl h.tunFd2 .SIOCSLIFNETMASK a8, ret := r8, errno := e8 },
         { call := .sys_ioctl h.tunFd2 .SIOCSLIFADDR a9, ret := r9, errno := e9 },
         { call := .sys_ioctl h.ipFd .I_LINK (.int h.tunFd2), ret := r10, errno := e10 }]
  | linkFailedBare (r5 r6 r7 r10 : Int) (e5 e6 e7 e10 : Nat) :
      address = none → 0 ≤ r5 → 0 ≤ r6 → 0 ≤ r7 → r10 < 0 →
      Provision h ifr address (some "ioctl(I_LINK) [%s]")
        [{ call := .sys_ioctl h.tunFd .I_SRDOPT .RMSGD, ret := r5, errno := e5 },
         { call := .sys_ioctl h.tunFd2 .I_PUSH (.str "ip"), ret := r6, errno := e6 },
         { call := .sys_ioctl h.tunFd2 .SIOCSLIFNAME (.lifreq ifr), ret := r7, errno := e7 },
         { call := .sys_ioctl h.ipFd .I_LINK (.int h.tunFd2), ret := r10, errno := e10 }]
  | linkedBare (r5 r6 r7 r10 : Int) (e5 e6 e7 e10 : Nat) :
      address = none → 0 ≤ r5 → 0 ≤ r6 → 0 ≤ r7 → 0 ≤ r10 →
      Provision h ifr address none
        [{ call := .sys_ioctl h.tunFd .I_SRDOPT .RMSGD, ret := r5, errno := e5 },
         { call := .sys_ioctl h.tunFd2 .I_PUSH (.str "ip"), ret := r6, errno := e6 },
         { call := .sys_ioctl h.tunFd2 .SIOCSLIFNAME (.lifreq ifr), ret := r7, errno := e7 },
         { call := .sys_ioctl h.ipFd .I_LINK (.int h.tunFd2), ret := r10, errno := e10 }]

/-- Three `close` calls, on `tunFd`, `ipFd` and `tunFd2` in this order. -/
def Unwound (h : Handles) (cl : List Event) : Prop :=
  ∃ r1 r2 r3 e1 e2 e3,
    cl = [{ call := .sys_close h.tunFd, ret := r1, errno := e1 },
          { call := .sys_close h.ipFd, ret := r2, errno := e2 },
          { call := .sys_close h.tunFd2, ret := r3, errno := e3 }]

/-! ## Sample plans -/

/-- The plan in which every `open` and `ioctl` succeeds, an `ioctl` returning 0. -/
def Plan.allOk : Nat → Outcome :=
  fun _ => .ok 0

/-- The plan in which only the call number `i` fails, with error code `e`. -/
def Plan.failAt (i e : Nat) : Nat → Outcome :=
  fun j => if j = i then .fail e else .ok 0

/-- The plan in which the calls number `i` and `j` fail, with error codes `e` and `f`. -/
def Plan.failBoth (i e j f : Nat) : Nat → Outcome :=
  fun m => if m = i then .fail e else if m = j then .fail f else .ok 0

/-! ## Facts about `maskForPrefix` -/

theorem maskForPrefix_loop_fuel (pfx : Int) (run : MaskRun) (fuel : Nat) (h : 3 ≤ fuel) :
    maskForPrefix.loop pfx fuel 0 run = maskForPrefix.loop pfx 3 0 run := by
  obtain ⟨f, rfl⟩ : ∃ f, fuel = f + 3 := ⟨fuel - 3, by omega⟩
  simp only [maskForPrefix.loop]
  simp

theorem maskForPrefixRun_neg (mask : List Nat) (pfx : Int) (h : pfx < 0) :
    maskForPrefixRun mask pfx = .ok { mask := (mask.set 0 0).set 8 0, shifts := [] } := by
  have h1 : ¬ (8 ≤ pfx) := by omega
  have h2 : ¬ (16 ≤ pfx) := by omega
  have h3 : pfx < 8 := by omega
  simp [maskForPrefixRun, maskForPrefix.loop, h, h1, h2, h3]

theorem maskForPrefixRun_large (mask : List Nat) (pfx : Int) (h : 16 ≤ pfx) :
    maskForPrefixRun mask pfx = .ok { mask := (mask.set 0 255).set 8 255, shifts := [] } := by
  have h1 : 8 ≤ pfx := by omega
  simp [maskForPrefixRun, maskForPrefix.loop, h, h1]

/-- The call of `maskForPrefix` returns: the loop ends within the fuel and no shift is
undefined. -/
theorem maskForPrefixRun_ok (mask : List Nat) (pfx : Int) :
    ∃ run, maskForPrefixRun mask pfx = .ok run ∧ maskForPrefix mask pfx = run.mask := by
  have key : ∃ run, maskForPrefixRun mask pfx = .ok run := by
    rcases lt_or_le pfx 0 with h0 | h0
    · exact ⟨_, maskForPrefixRun_neg mask pfx h0⟩
    rcases le_or_lt 16 pfx with h16 | h16
    · exact ⟨_, maskForPrefixRun_large mask pfx h16⟩
    interval_cases pfx <;> exact ⟨_, rfl⟩
  obtain ⟨run, hrun⟩ := key
  exact ⟨run, hrun, by simp only [maskForPrefix, hrun]⟩

/-- Only the bytes 0 and 8 of the buffer are written: every other byte keeps its value. -/
theorem maskForPrefix_untouched (mask : List Nat) (pfx : Int) (k : Nat) (h0 : k ≠ 0)
    (h8 : k ≠ 8) : (maskForPrefix mask pfx)[k]? = mask[k]? := by
  have hset : ∀ a b : Nat, ((mask.set 0 a).set 8 b)[k]? = mask[k]? := by
    intro a b
    rw [List.getElem?_set_ne (Ne.symm h8), List.getElem?_set_ne (Ne.symm h0)]
  rcases lt_or_le pfx 0 with hn | hn
  · simp only [maskForPrefix, maskForPrefixRun_neg mask pfx hn]
    exact hset _ _
  rcases le_or_lt 16 pfx with h16 | h16
  · simp only [maskForPrefix, maskForPrefixRun_large mask pfx h16]
    exact hset _ _
  interval_cases pfx <;> exact hset _ _

/-! ## Facts about the kernel calls -/

section kernel
variable (k : Kernel)

@[simp] theorem sys_open_log (path : String) :
    (k.sys_open path).2.log =
      k.log ++ [{ call := .sys_open path, ret := (k.sys_open path).1,
                  errno := (k.sys_open path).2.errno }] := by
  unfold Kernel.sys_open; split <;> rfl

@[simp] theorem sys_ioctl_log (fd : Int) (req : Req) (arg : Arg) :
    (k.sys_ioctl fd req arg).2.log =
      k.log ++ [{ call := .sys_ioctl fd req arg, ret := (k.sys_ioctl fd req arg).1,
                  errno := (k.sys_ioctl fd req arg).2.errno }] := by
  unfold Kernel.sys_ioctl; split
  · split <;> rfl
  · rfl

@[simp] theorem sys_close_log (fd : Int) :
    (k.sys_close fd).2.log =
      k.log ++ [{ call := .sys_close fd, ret := (k.sys_close fd).1,
                  errno := (k.sys_close fd).2.errno }] := by
  unfold Kernel.sys_close; split <;> rfl

@[simp] theorem sys_open_plan (path : String) : (k.sys_open path).2.plan = k.plan := by
  unfold Kernel.sys_open; split <;> rfl

@[simp] theorem sys_ioctl_plan (fd : Int) (req : Req) (arg : Arg) :
    (k.sys_ioctl fd req arg).2.plan = k.plan := by
  unfold Kernel.sys_ioctl; split
  · split <;> rfl
  · rfl

@[simp] theorem sys_ioctl_openFds (fd : Int) (req : Req) (arg : Arg) :
    (k.sys_ioctl fd req arg).2.openFds = k.openFds := by
  unfold Kernel.sys_ioctl; split
  · split <;> rfl
  · rfl

@[simp] theorem sys_ioctl_nextFd (fd : Int) (req : Req) (arg : Arg) :
    (k.sys_ioctl fd req arg).2.nextFd = k.nextFd := by
  unfold Kernel.sys_ioctl; split
  · split <;> rfl
  · rfl

@[simp] theorem sys_close_openFds (fd : Int) :
    (k.sys_close fd).2.openFds = k.openFds.erase fd := by
  unfold Kernel.sys_close; split
  · rfl
  · rename_i h
    exact (List.erase_of_not_mem h).symm

/-- An `open` either fails, returning -1 and opening nothing, or returns the next free
descriptor. -/
theorem sys_open_fd (path : String) :
    ((k.sys_open path).1 = -1 ∧ (k.sys_open path).2.openFds = k.openFds ∧
        (k.sys_open path).2.nextFd = k.nextFd) ∨
    ((k.sys_open path).1 = k.nextFd ∧ (k.sys_open path).2.openFds = k.openFds ++ [(k.nextFd : Int)] ∧
        (k.sys_open path).2.nextFd = k.nextFd + 1) := by
  unfold Kernel.sys_open; split
  · exact Or.inl ⟨rfl, rfl, rfl⟩
  · exact Or.inr ⟨rfl, rfl, rfl⟩

theorem sys_open_ok (path : String) (hk : AllSucceed k.plan) :
    (k.sys_open path).1 = k.nextFd ∧ (k.sys_open path).2.openFds = k.openFds ++ [(k.nextFd : Int)] ∧
      (k.sys_open path).2.nextFd = k.nextFd + 1 := by
  obtain ⟨r, hr⟩ := hk k.issued
  simp [Kernel.sys_open, hr]

theorem sys_ioctl_ok (fd : Int) (req : Req) (arg : Arg) (hk : AllSucceed k.plan)
    (hfd : fd ∈ k.openFds) : 0 ≤ (k.sys_ioctl fd req arg).1 := by
  obtain ⟨r, hr⟩ := hk k.issued
  simp [Kernel.sys_ioctl, hr, hfd]

end kernel

/-! ## Facts about the blocks of `TUNConfigurator_configure` -/

/-- The log after the acquisition calls: four events, whose return values are the four local
variables. The second is `TUNSETPPA` with the parsed number when that number is not 0, and
`TUNNEWPPA` with -1 when it is 0. -/
theorem acquire_log (ppa0 : Int) (k0 : Kernel) :
    ∃ c e1 e2 e3 e4,
      (TUNConfigurator_configure.acquire ppa0 k0).2.log = k0.log ++
        [{ call := .sys_open "/dev/tun",
           ret := (TUNConfigurator_configure.acquire ppa0 k0).1.tunFd, errno := e1 },
         { call := c, ret := (TUNConfigurator_configure.acquire ppa0 k0).1.ppa, errno := e2 },
         { call := .sys_open "/dev/ip6",
           ret := (TUNConfigurator_configure.acquire ppa0 k0).1.ipFd, errno := e3 },
         { call := .sys_open "/dev/tun",
           ret := (TUNConfigurator_configure.acquire ppa0 k0).1.tunFd2, errno := e4 }] ∧
      (c = .sys_ioctl (TUNConfigurator_configure.acquire ppa0 k0).1.tunFd .TUNSETPPA (.int ppa0) ∧
          ppa0 ≠ 0 ∨
       c = .sys_ioctl (TUNConfigurator_configure.acquire ppa0 k0).1.tunFd .TUNNEWPPA (.int (-1)) ∧
          ppa0 = 0) := by
  by_cases hp : ppa0 = 0
  · subst hp
    simp [TUNConfigurator_configure.acquire]
  · simp [TUNConfigurator_configure.acquire, hp]

theorem acquire_plan (ppa0 : Int) (k0 : Kernel) :
    (TUNConfigurator_configure.acquire ppa0 k0).2.plan = k0.plan := by
  by_cases hp : ppa0 = 0 <;> simp [TUNConfigurator_configure.acquire, hp]

/-- Each of the three descriptors is -1 or a fresh descriptor, the fresh ones are pairwise
different, and closing the three gives back the descriptors that were open before. -/
theorem acquire_fds (ppa0 : Int) (k0 : Kernel) (hk : k0.WellFormed) :
    let a := TUNConfigurator_configure.acquire ppa0 k0
    (0 ≤ a.1.tunFd → a.1.tunFd ≠ a.1.ipFd ∧ a.1.tunFd ≠ a.1.tunFd2) ∧
    (0 ≤ a.1.ipFd → a.1.ipFd ≠ a.1.tunFd2) ∧
    ((a.2.openFds.erase a.1.tunFd).erase a.1.ipFd).erase a.1.tunFd2 = k0.openFds := by
  intro a
  have hbind : ∀ k : Kernel, ∀ fd : Int,
      (if ppa0 ≠ 0 then k.sys_ioctl fd .TUNSETPPA (.int ppa0)
        else k.sys_ioctl fd .TUNNEWPPA (.int (-1))).2.openFds = k.openFds ∧
      (if ppa0 ≠ 0 then k.sys_ioctl fd .TUNSETPPA (.int ppa0)
        else k.sys_ioctl fd .TUNNEWPPA (.int (-1))).2.nextFd = k.nextFd := by
    intro k fd; split <;> simp
  simp only [a, TUNConfigurator_configure.acquire]
  generalize hr1 : k0.sys_open "/dev/tun" = r1
  have h1 := sys_open_fd k0 "/dev/tun"
  rw [hr1] at h1
  have h2 := hbind r1.2 r1.1
  generalize (if ppa0 ≠ 0 then r1.2.sys_ioctl r1.1 .TUNSETPPA (.int ppa0)
        else r1.2.sys_ioctl r1.1 .TUNNEWPPA (.int (-1))) = r2 at h2 ⊢
  generalize hr3 : r2.2.sys_open "/dev/ip6" = r3
  have h3 := sys_open_fd r2.2 "/dev/ip6"
  rw [hr3] at h3
  generalize hr4 : r3.2.sys_open "/dev/tun" = r4
  have h4 := sys_open_fd r3.2 "/dev/tun"
  rw [hr4] at h4
  have hm1 : (-1 : Int) ∉ k0.openFds := fun hm => by have := (hk _ hm).1; omega
  have hmn : ∀ j : Nat, ((k0.nextFd : Int) + j) ∉ k0.openFds :=
    fun j hm => by have := (hk _ hm).2; omega
  have hmn0 : (k0.nextFd : Int) ∉ k0.openFds := by simpa using hmn 0
  have hmn1 : ((k0.nextFd : Int) + 1) ∉ k0.openFds := by simpa using hmn 1
  have hmn2' : ((k0.nextFd : Int) + 1 + 1) ∉ k0.openFds := by
    have := hmn 2; rwa [show ((k0.nextFd : Int) + 1 + 1) = (k0.nextFd : Int) + (2 : Nat) by push_cast; ring]
  obtain ⟨h2o, h2n⟩ := h2
  rcases h1 with ⟨a1, o1, n1⟩ | ⟨a1, o1, n1⟩ <;>
    rcases h3 with ⟨a3, o3, n3⟩ | ⟨a3, o3, n3⟩ <;>
    rcases h4 with ⟨a4, o4, n4⟩ | ⟨a4, o4, n4⟩ <;>
    simp only [a1, a3, a4, o4, o3, h2o, o1, n3, h2n, n1] <;>
    refine ⟨?_, ?_, ?_⟩
  all_goals first
    | omega
    | skip
  all_goals simp [List.erase_of_not_mem, hm1, hmn0, hmn1, hmn2', List.erase_append_right]
  all_goals omega

theorem acquire_ok (ppa0 : Int) (k0 : Kernel) (hk : AllSucceed k0.plan) :
    let a := TUNConfigurator_configure.acquire ppa0 k0
    a.1.tunFd = k0.nextFd ∧ a.1.ipFd = k0.nextFd + 1 ∧ a.1.tunFd2 = k0.nextFd + 2 ∧ 0 ≤ a.1.ppa ∧
      a.2.openFds = k0.openFds ++ [(k0.nextFd : Int), (k0.nextFd : Int) + 1, (k0.nextFd : Int) + 2] := by
  intro a
  have h1 := sys_open_ok k0 "/dev/tun" hk
  have hk1 : AllSucceed (k0.sys_open "/dev/tun").2.plan := by simpa using hk
  have hm1 : (k0.sys_open "/dev/tun").1 ∈ (k0.sys_open "/dev/tun").2.openFds := by
    rw [h1.1, h1.2.1]; simp
  by_cases hp : ppa0 = 0
  · have h2 := sys_ioctl_ok _ _ .TUNNEWPPA (.int (-1)) hk1 hm1
    have hk2 : AllSucceed ((k0.sys_open "/dev/tun").2.sys_ioctl (k0.sys_open "/dev/tun").1
        .TUNNEWPPA (.int (-1))).2.plan := by simpa using hk
    have h3 := sys_open_ok _ "/dev/ip6" hk2
    have hk3 : AllSucceed ((((k0.sys_open "/dev/tun").2.sys_ioctl (k0.sys_open "/dev/tun").1
        .TUNNEWPPA (.int (-1))).2.sys_open "/dev/ip6").2.plan) := by simpa using hk
    have h4 := sys_open_ok _ "/dev/tun" hk3
    simp only [a, TUNConfigurator_configure.acquire, hp, ne_eq, not_true_eq_false, if_false]
    simp only [sys_ioctl_openFds, sys_ioctl_nextFd] at h3 h4
    refine ⟨h1.1, ?_, ?_, h2, ?_⟩
    · rw [h3.1, h1.2.2]; push_cast; ring
    · rw [h4.1, h3.2.2, h1.2.2]; push_cast; ring
    · rw [h4.2.1, h3.2.1, h1.2.1, h3.2.2, h1.2.2]; push_cast; simp [add_assoc]
  · have h2 := sys_ioctl_ok _ _ .TUNSETPPA (.int ppa0) hk1 hm1
    have hk2 : AllSucceed ((k0.sys_open "/dev/tun").2.sys_ioctl (k0.sys_open "/dev/tun").1
        .TUNSETPPA (.int ppa0)).2.plan := by simpa using hk
    have h3 := sys_open_ok _ "/dev/ip6" hk2
    have hk3 : AllSucceed ((((k0.sys_open "/dev/tun").2.sys_ioctl (k0.sys_open "/dev/tun").1
        .TUNSETPPA (.int ppa0)).2.sys_open "/dev/ip6").2.plan) := by simpa using hk
    have h4 := sys_open_ok _ "/dev/tun" hk3
    simp only [a, TUNConfigurator_configure.acquire, hp, ne_eq, not_false_eq_true, if_true]
    simp only [sys_ioctl_openFds, sys_ioctl_nextFd] at h3 h4
    refine ⟨h1.1, ?_, ?_, h2, ?_⟩
    · rw [h3.1, h1.2.2]; push_cast; ring
    · rw [h4.1, h3.2.2, h1.2.2]; push_cast; ring
    · rw [h4.2.1, h3.2.1, h1.2.1, h3.2.2, h1.2.2]; push_cast; simp [add_assoc]

/-- The log after `unwind`: three `close` calls, on `tunFd`, `ipFd` and `tunFd2`. -/
theorem unwind_log (h : Handles) (k : Kernel) :
    ∃ r1 r2 r3 e1 e2 e3,
      (TUNConfigurator_configure.unwind h k).2.log = k.log ++
        [{ call := .sys_close h.tunFd, ret := r1, errno := e1 },
         { call := .sys_close h.ipFd, ret := r2, errno := e2 },
         { call := .sys_close h.tunFd2, ret := r3, errno := e3 }] := by
  simp [TUNConfigurator_configure.unwind]

theorem unwind_openFds (h : Handles) (k : Kernel) :
    (TUNConfigurator_configure.unwind h k).2.openFds =
      ((k.openFds.erase h.tunFd).erase h.ipFd).erase h.tunFd2 := by
  simp [TUNConfigurator_configure.unwind]

theorem unwind_err (h : Handles) (k : Kernel) :
    (TUNConfigurator_configure.unwind h k).1 = k.errno := rfl

theorem attach_shape (h : Handles) (ifr : Lifreq) (k : Kernel) :
    ∃ r5 r6 r7 e5 e6 e7,
      (r5 < 0 ∧ (TUNConfigurator_configure.attach h ifr k).1 =
          some "putting tun into message-discard mode [%s]" ∧
        (TUNConfigurator_configure.attach h ifr k).2.log = k.log ++
          [{ call := .sys_ioctl h.tunFd .I_SRDOPT .RMSGD, ret := r5, errno := e5 }]) ∨
      (0 ≤ r5 ∧ r6 < 0 ∧ (TUNConfigurator_configure.attach h ifr k).1 = some "ioctl(I_PUSH) [%s]" ∧
        (TUNConfigurator_configure.attach h ifr k).2.log = k.log ++
          [{ call := .sys_ioctl h.tunFd .I_SRDOPT .RMSGD, ret := r5, errno := e5 },
           { call := .sys_ioctl h.tunFd2 .I_PUSH (.str "ip"), ret := r6, errno := e6 }]) ∨
      (0 ≤ r5 ∧ 0 ≤ r6 ∧ r7 < 0 ∧
        (TUNConfigurator_configure.attach h ifr k).1 = some "ioctl(SIOCSLIFNAME) [%s]" ∧
        (TUNConfigurator_configure.attach h ifr k).2.log = k.log ++
          [{ call := .sys_ioctl h.tunFd .I_SRDOPT .RMSGD, ret := r5, errno := e5 },
           { call := .sys_ioctl h.tunFd2 .I_PUSH (.str "ip"), ret := r6, errno := e6 },
           { call := .sys_ioctl h.tunFd2 .SIOCSLIFNAME (.lifreq ifr), ret := r7, errno := e7 }]) ∨
      (0 ≤ r5 ∧ 0 ≤ r6 ∧ 0 ≤ r7 ∧ (TUNConfigurator_configure.attach h ifr k).1 = none ∧
        (TUNConfigurator_configure.attach h ifr k).2.log = k.log ++
          [{ call := .sys_ioctl h.tunFd .I_SRDOPT .RMSGD, ret := r5, errno := e5 },
           { call := .sys_ioctl h.tunFd2 .I_PUSH (.str "ip"), ret := r6, errno := e6 },
           { call := .sys_ioctl h.tunFd2 .SIOCSLIFNAME (.lifreq ifr), ret := r7, errno := e7 }]) := by
  simp only [TUNConfigurator_configure.attach]
  split_ifs with h5 h6 h7
  · exact ⟨_, 0, 0, _, 0, 0, Or.inl ⟨h5, rfl, sys_ioctl_log _ _ _ _⟩⟩
  · exact ⟨_, _, 0, _, _, 0, Or.inr (Or.inl ⟨not_lt.mp h5, h6, rfl, by
      rw [sys_ioctl_log, sys_ioctl_log, List.append_assoc]; rfl⟩)⟩
  · exact ⟨_, _, _, _, _, _, Or.inr (Or.inr (Or.inl ⟨not_lt.mp h5, not_lt.mp h6, h7, rfl, by
      rw [sys_ioctl_log, sys_ioctl_log, sys_ioctl_log, List.append_assoc, List.append_assoc]
      rfl⟩))⟩
  · exact ⟨_, _, _, _, _, _, Or.inr (Or.inr (Or.inr ⟨not_lt.mp h5, not_lt.mp h6, not_lt.mp h7,
      rfl, by
      rw [sys_ioctl_log, sys_ioctl_log, sys_ioctl_log, List.append_assoc, List.append_assoc]
      rfl⟩))⟩

theorem assign_some (h : Handles) (ifr : Lifreq) (address : Option (List Nat)) (pfx : Int)
    (e : String) (k : Kernel) :
    TUNConfigurator_configure.assign h ifr address pfx (some e) k = (some e, k) := by
  simp [TUNConfigurator_configure.assign]

theorem assign_absent (h : Handles) (ifr : Lifreq) (pfx : Int) (error : Option String)
    (k : Kernel) :
    TUNConfigurator_configure.assign h ifr none pfx error k = (error, k) := by
  simp [TUNConfigurator_configure.assign]

theorem assign_shape (h : Handles) (ifr : Lifreq) (addr : List Nat) (pfx : Int) (k : Kernel) :
    ∃ a8 a9 r8 r9 e8 e9,
      (r8 < 0 ∧ (TUNConfigurator_configure.assign h ifr (some addr) pfx none k).1 =
          some "ioctl(SIOCSLIFNETMASK) (setting netmask) [%s]" ∧
        (TUNConfigurator_configure.assign h ifr (some addr) pfx none k).2.log = k.log ++
          [{ call := .sys_ioctl h.tunFd2 .SIOCSLIFNETMASK a8, ret := r8, errno := e8 }]) ∨
      (0 ≤ r8 ∧ r9 < 0 ∧ (TUNConfigurator_configure.assign h ifr (some addr) pfx none k).1 =
          some "ioctl(SIOCSLIFADDR) (setting ipv6 address) [%s]" ∧
        (TUNConfigurator_configure.assign h ifr (some addr) pfx none k).2.log = k.log ++
          [{ call := .sys_ioctl h.tunFd2 .SIOCSLIFNETMASK a8, ret := r8, errno := e8 },
           { call := .sys_ioctl h.tunFd2 .SIOCSLIFADDR a9, ret := r9, errno := e9 }]) ∨
      (0 ≤ r8 ∧ 0 ≤ r9 ∧ (TUNConfigurator_configure.assign h ifr (some addr) pfx none k).1 = none ∧
        (TUNConfigurator_configure.assign h ifr (some addr) pfx none k).2.log = k.log ++
          [{ call := .sys_ioctl h.tunFd2 .SIOCSLIFNETMASK a8, ret := r8, errno := e8 },
           { call := .sys_ioctl h.tunFd2 .SIOCSLIFADDR a9, ret := r9, errno := e9 }]) := by
  simp only [TUNConfigurator_configure.assign]
  split_ifs with h8 h9
  · exact ⟨_, .RMSGD, _, 0, _, 0, Or.inl ⟨h8, rfl, sys_ioctl_log _ _ _ _⟩⟩
  · exact ⟨_, _, _, _, _, _, Or.inr (Or.inl ⟨not_lt.mp h8, h9, rfl, by
      rw [sys_ioctl_log, sys_ioctl_log, List.append_assoc]; rfl⟩)⟩
  · exact ⟨_, _, _, _, _, _, Or.inr (Or.inr ⟨not_lt.mp h8, not_lt.mp h9, rfl, by
      rw [sys_ioctl_log, sys_ioctl_log, List.append_assoc]; rfl⟩)⟩

theorem link_some (h : Handles) (e : String) (k : Kernel) :
    TUNConfigurator_configure.link h (some e) k = (some (some e), k) := rfl

theorem link_shape (h : Handles) (k : Kernel) :
    ∃ r10 e10,
      (r10 < 0 ∧ (TUNConfigurator_configure.link h none k).1 = some (some "ioctl(I_LINK) [%s]") ∨
        0 ≤ r10 ∧ (TUNConfigurator_configure.link h none k).1 = none) ∧
      (TUNConfigurator_configure.link h none k).2.log = k.log ++
        [{ call := .sys_ioctl h.ipFd .I_LINK (.int h.tunFd2), ret := r10, errno := e10 }] := by
  simp only [TUNConfigurator_configure.link]
  split_ifs with h10
  · exact ⟨_, _, Or.inl ⟨h10, rfl⟩, sys_ioctl_log _ _ _ _⟩
  · exact ⟨_, _, Or.inr ⟨not_lt.mp h10, rfl⟩, sys_ioctl_log _ _ _ _⟩

/-- Lines 106-144 taken together follow one of the paths of `Provision`. -/
theorem provision_shape (h : Handles) (ifr : Lifreq) (address : Option (List Nat)) (pfx : Int)
    (k : Kernel) :
    ∃ status mid, Provision h ifr address status mid ∧
      (TUNConfigurator_configure.link h
        (TUNConfigurator_configure.assign h ifr address pfx
          (TUNConfigurator_configure.attach h ifr k).1
          (TUNConfigurator_configure.attach h ifr k).2).1
        (TUNConfigurator_configure.assign h ifr address pfx
          (TUNConfigurator_configure.attach h ifr k).1
          (TUNConfigurator_configure.attach h ifr k).2).2).1 = status.map some ∧
      (TUNConfigurator_configure.link h
        (TUNConfigurator_configure.assign h ifr address pfx
          (TUNConfigurator_configure.attach h ifr k).1
          (TUNConfigurator_configure.attach h ifr k).2).1
        (TUNConfigurator_configure.assign h ifr address pfx
          (TUNConfigurator_configure.attach h ifr k).1
          (TUNConfigurator_configure.attach h ifr k).2).2).2.log = k.log ++ mid := by
  obtain ⟨r5, r6, r7, e5, e6, e7, hs⟩ := attach_shape h ifr k
  generalize TUNConfigurator_configure.attach h ifr k = s1 at hs ⊢
  rcases hs with ⟨h5, hst, hlog⟩ | ⟨h5, h6, hst, hlog⟩ | ⟨h5, h6, h7, hst, hlog⟩ |
    ⟨h5, h6, h7, hst, hlog⟩
  · rw [hst, assign_some, link_some]
    exact ⟨_, _, Provision.srdopt r5 e5 h5, rfl, hlog⟩
  · rw [hst, assign_some, link_some]
    exact ⟨_, _, Provision.push r5 r6 e5 e6 h5 h6, rfl, hlog⟩
  · rw [hst, assign_some, link_some]
    exact ⟨_, _, Provision.lifname r5 r6 r7 e5 e6 e7 h5 h6 h7, rfl, hlog⟩
  · rw [hst]
    cases address with
    | none =>
      rw [assign_absent]
      obtain ⟨r10, e10, ⟨h10, hl⟩ | ⟨h10, hl⟩, hllog⟩ := link_shape h s1.2
      · refine ⟨_, _, Provision.linkFailedBare r5 r6 r7 r10 e5 e6 e7 e10 rfl h5 h6 h7 h10,
          hl, ?_⟩
        rw [hllog, hlog, List.append_assoc]; rfl
      · refine ⟨_, _, Provision.linkedBare r5 r6 r7 r10 e5 e6 e7 e10 rfl h5 h6 h7 h10, hl, ?_⟩
        rw [hllog, hlog, List.append_assoc]; rfl
    | some addr =>
      obtain ⟨a8, a9, r8, r9, e8, e9, hs2⟩ := assign_shape h ifr addr pfx s1.2
      generalize TUNConfigurator_configure.assign h ifr (some addr) pfx none s1.2 = s2 at hs2 ⊢
      rcases hs2 with ⟨h8, hst2, hlog2⟩ | ⟨h8, h9, hst2, hlog2⟩ | ⟨h8, h9, hst2, hlog2⟩
      · rw [hst2, link_some]
        refine ⟨_, _, Provision.netmask a8 r5 r6 r7 r8 e5 e6 e7 e8 rfl h5 h6 h7 h8, rfl, ?_⟩
        rw [hlog2, hlog, List.append_assoc]; rfl
      · rw [hst2, link_some]
        refine ⟨_, _, Provision.addr a8 a9 r5 r6 r7 r8 r9 e5 e6 e7 e8 e9 rfl h5 h6 h7 h8 h9,
          rfl, ?_⟩
        rw [hlog2, hlog, List.append_assoc]; rfl
      · rw [hst2]
        obtain ⟨r10, e10, ⟨h10, hl⟩ | ⟨h10, hl⟩, hllog⟩ := link_shape h s2.2
        · refine ⟨_, _, Provision.linkFailed a8 a9 r5 r6 r7 r8 r9 r10 e5 e6 e7 e8 e9 e10 rfl
            h5 h6 h7 h8 h9 h10, hl, ?_⟩
          rw [hllog, hlog2, hlog, List.append_assoc, List.append_assoc]; rfl
        · refine ⟨_, _, Provision.linked a8 a9 r5 r6 r7 r8 r9 r10 e5 e6 e7 e8 e9 e10 rfl
            h5 h6 h7 h8 h9 h10, hl, ?_⟩
          rw [hllog, hlog2, hlog, List.append_assoc, List.append_assoc]; rfl

/-- Every run of `TUNConfigurator_configure` has one of three forms. The log always starts
with the four acquisition calls. If one of them failed, the three closes follow and the error
chosen by lines 84-93 is raised. Otherwise the `ioctl`s of one path of `Provision` follow, and
either the first descriptor is returned, or the three closes follow and the path's error is
raised. -/
theorem configure_cases (junk : List Nat) (name : Option String) (address : Option (List Nat))
    (pfx : Int) (k0 : Kernel) :
    ∃ (h : Handles) (c : Call) (e1 e2 e3 e4 : Nat),
      h = (TUNConfigurator_configure.acquire (TUNConfigurator_configure.ppaOfName name) k0).1 ∧
      (c = .sys_ioctl h.tunFd .TUNSETPPA (.int (TUNConfigurator_configure.ppaOfName name)) ∧
          TUNConfigurator_configure.ppaOfName name ≠ 0 ∨
       c = .sys_ioctl h.tunFd .TUNNEWPPA (.int (-1)) ∧
          TUNConfigurator_configure.ppaOfName name = 0) ∧
      (((h.tunFd < 0 ∨ h.ipFd < 0 ∨ h.ppa < 0 ∨ h.tunFd2 < 0) ∧
        ∃ err cl, Unwound h cl ∧
          (TUNConfigurator_configure junk name address pfx k0).1 =
            .raised (TUNConfigurator_configure.acquireError h) err ∧
          (TUNConfigurator_configure junk name address pfx k0).2.log = k0.log ++
            ([{ call := .sys_open "/dev/tun", ret := h.tunFd, errno := e1 },
              { call := c, ret := h.ppa, errno := e2 },
              { call := .sys_open "/dev/ip6", ret := h.ipFd, errno := e3 },
              { call := .sys_open "/dev/tun", ret := h.tunFd2, errno := e4 }] ++ cl)) ∨
       (0 ≤ h.tunFd ∧ 0 ≤ h.ipFd ∧ 0 ≤ h.ppa ∧ 0 ≤ h.tunFd2) ∧
        ∃ ifr status mid, Provision h ifr address status mid ∧
          ((status = none ∧
            (TUNConfigurator_configure junk name address pfx k0).1 = .returned h.tunFd ∧
            (TUNConfigurator_configure junk name address pfx k0).2.log = k0.log ++
              ([{ call := .sys_open "/dev/tun", ret := h.tunFd, errno := e1 },
                { call := c, ret := h.ppa, errno := e2 },
                { call := .sys_open "/dev/ip6", ret := h.ipFd, errno := e3 },
                { call := .sys_open "/dev/tun", ret := h.tunFd2, errno := e4 }] ++ mid)) ∨
           ∃ m err cl, status = some m ∧ Unwound h cl ∧
            (TUNConfigurator_configure junk name address pfx k0).1 = .raised (some m) err ∧
            (TUNConfigurator_configure junk name address pfx k0).2.log = k0.log ++
              ([{ call := .sys_open "/dev/tun", ret := h.tunFd, errno := e1 },
                { call := c, ret := h.ppa, errno := e2 },
                { call := .sys_open "/dev/ip6", ret := h.ipFd, errno := e3 },
                { call := .sys_open "/dev/tun", ret := h.tunFd2, errno := e4 }] ++ (mid ++ cl)))) := by
  obtain ⟨c, e1, e2, e3, e4, hlog, hc⟩ :=
    acquire_log (TUNConfigurator_configure.ppaOfName name) k0
  refine ⟨_, c, e1, e2, e3, e4, rfl, hc, ?_⟩
  simp only [TUNConfigurator_configure]
  generalize TUNConfigurator_configure.acquire (TUNConfigurator_configure.ppaOfName name) k0 = a
    at hlog ⊢
  split_ifs with hfail
  · left
    obtain ⟨r1, r2, r3, f1, f2, f3, hu⟩ := unwind_log a.1 a.2
    exact ⟨hfail, _, _, ⟨r1, r2, r3, f1, f2, f3, rfl⟩, rfl, by
      rw [hu, hlog, List.append_assoc]⟩
  · right
    have hok : 0 ≤ a.1.tunFd ∧ 0 ≤ a.1.ipFd ∧ 0 ≤ a.1.ppa ∧ 0 ≤ a.1.tunFd2 := by omega
    refine ⟨hok, ?_⟩
    obtain ⟨status, mid, hprov, hst, hmid⟩ := provision_shape a.1
      { lifr_name := "tun" ++ toString a.1.ppa, lifr_ppa := a.1.ppa, lifr_flags := .IFF_IPV6,
        ss_family := none, sin6_addr := junk } address pfx a.2
    refine ⟨_, status, mid, hprov, ?_⟩
    generalize TUNConfigurator_configure.link a.1 _ _ = s3 at hst hmid ⊢
    cases status with
    | none =>
      left
      simp only [Option.map_none'] at hst
      refine ⟨rfl, ?_, ?_⟩
      · simp only [hst]
      · simp only [hst]; rw [hmid, hlog, List.append_assoc]
    | some m =>
      right
      simp only [Option.map_some'] at hst
      obtain ⟨r1, r2, r3, f1, f2, f3, hu⟩ := unwind_log a.1 s3.2
      refine ⟨m, (TUNConfigurator_configure.unwind a.1 s3.2).1, _, rfl,
        ⟨r1, r2, r3, f1, f2, f3, rfl⟩, ?_, ?_⟩
      · simp only [hst]
      · simp only [hst]; rw [hu, hmid, hlog, List.append_assoc, List.append_assoc]

theorem attach_openFds (h : Handles) (ifr : Lifreq) (k : Kernel) :
    (TUNConfigurator_configure.attach h ifr k).2.openFds = k.openFds ∧
      (TUNConfigurator_configure.attach h ifr k).2.plan = k.plan := by
  simp only [TUNConfigurator_configure.attach]
  split_ifs <;> simp

theorem assign_openFds (h : Handles) (ifr : Lifreq) (address : Option (List Nat)) (pfx : Int)
    (error : Option String) (k : Kernel) :
    (TUNConfigurator_configure.assign h ifr address pfx error k).2.openFds = k.openFds ∧
      (TUNConfigurator_configure.assign h ifr address pfx error k).2.plan = k.plan := by
  simp only [TUNConfigurator_configure.assign]
  split
  · split_ifs <;> simp
  · simp

theorem link_openFds (h : Handles) (error : Option String) (k : Kernel) :
    (TUNConfigurator_configure.link h error k).2.openFds = k.openFds ∧
      (TUNConfigurator_configure.link h error k).2.plan = k.plan := by
  simp only [TUNConfigurator_configure.link]
  split
  · simp
  · split_ifs <;> simp

theorem attach_ok (h : Handles) (ifr : Lifreq) (k : Kernel) (hk : AllSucceed k.plan)
    (h1 : h.tunFd ∈ k.openFds) (h2 : h.tunFd2 ∈ k.openFds) :
    (TUNConfigurator_configure.attach h ifr k).1 = none := by
  have a5 := sys_ioctl_ok k h.tunFd .I_SRDOPT .RMSGD hk h1
  have a6 := sys_ioctl_ok (k.sys_ioctl h.tunFd .I_SRDOPT .RMSGD).2 h.tunFd2 .I_PUSH (.str "ip")
    (by simpa using hk) (by simpa using h2)
  have a7 := sys_ioctl_ok ((k.sys_ioctl h.tunFd .I_SRDOPT .RMSGD).2.sys_ioctl h.tunFd2 .I_PUSH
    (.str "ip")).2 h.tunFd2 .SIOCSLIFNAME (.lifreq ifr) (by simpa using hk) (by simpa using h2)
  simp only [TUNConfigurator_configure.attach, if_neg (not_lt.mpr a5), if_neg (not_lt.mpr a6),
    if_neg (not_lt.mpr a7)]

theorem assign_ok (h : Handles) (ifr : Lifreq) (address : Option (List Nat)) (pfx : Int)
    (k : Kernel) (hk : AllSucceed k.plan) (h2 : h.tunFd2 ∈ k.openFds) :
    (TUNConfigurator_configure.assign h ifr address pfx none k).1 = none := by
  cases address with
  | none => rw [assign_absent]
  | some addr =>
    have a8 := sys_ioctl_ok k h.tunFd2 .SIOCSLIFNETMASK
      (.lifreq { ifr with sin6_addr := maskForPrefix ifr.sin6_addr pfx,
                          ss_family := some .AF_INET6 }) hk h2
    have a9 := sys_ioctl_ok (k.sys_ioctl h.tunFd2 .SIOCSLIFNETMASK
      (.lifreq { ifr with sin6_addr := maskForPrefix ifr.sin6_addr pfx,
                          ss_family := some .AF_INET6 })).2 h.tunFd2 .SIOCSLIFADDR
      (.lifreq { ifr with sin6_addr := addr.take 16, ss_family := some .AF_INET6 })
      (by simpa using hk) (by simpa using h2)
    simp only [TUNConfigurator_configure.assign, if_neg (not_lt.mpr a8), if_neg (not_lt.mpr a9)]

theorem link_ok (h : Handles) (k : Kernel) (hk : AllSucceed k.plan) (h3 : h.ipFd ∈ k.openFds) :
    (TUNConfigurator_configure.link h none k).1 = none := by
  have a10 := sys_ioctl_ok k h.ipFd .I_LINK (.int h.tunFd2) hk h3
  simp only [TUNConfigurator_configure.link, if_neg (not_lt.mpr a10)]

/-- When every `open` and `ioctl` succeeds, the call returns the descriptor of the first
open, which is the lowest free descriptor. -/
theorem configure_ok (junk : List Nat) (name : Option String) (address : Option (List Nat))
    (pfx : Int) (k0 : Kernel) (hk : AllSucceed k0.plan) :
    (TUNConfigurator_configure junk name address pfx k0).1 = .returned k0.nextFd := by
  obtain ⟨t1, t2, t3, t4, hto⟩ := acquire_ok (TUNConfigurator_configure.ppaOfName name) k0 hk
  have hp := acquire_plan (TUNConfigurator_configure.ppaOfName name) k0
  simp only [TUNConfigurator_configure]
  generalize TUNConfigurator_configure.acquire (TUNConfigurator_configure.ppaOfName name) k0 = a
    at t1 t2 t3 t4 hto hp ⊢
  have hka : AllSucceed a.2.plan := by rw [hp]; exact hk
  have m1 : a.1.tunFd ∈ a.2.openFds := by rw [hto, t1]; simp
  have m2 : a.1.tunFd2 ∈ a.2.openFds := by rw [hto, t3]; simp
  have m3 : a.1.ipFd ∈ a.2.openFds := by rw [hto, t2]; simp
  have hnf : ¬ (a.1.tunFd < 0 ∨ a.1.ipFd < 0 ∨ a.1.ppa < 0 ∨ a.1.tunFd2 < 0) := by omega
  rw [if_neg hnf]
  generalize Lifreq.mk ("tun" ++ toString a.1.ppa) a.1.ppa .IFF_IPV6 none junk = ifr
  have s1 := attach_ok a.1 ifr a.2 hka m1 m2
  obtain ⟨o1, p1⟩ := attach_openFds a.1 ifr a.2
  generalize TUNConfigurator_configure.attach a.1 ifr a.2 = r1 at s1 o1 p1 ⊢
  rw [s1]
  have s2 := assign_ok a.1 ifr address pfx r1.2 (by rw [p1]; exact hka) (by rw [o1]; exact m2)
  obtain ⟨o2, p2⟩ := assign_openFds a.1 ifr address pfx none r1.2
  generalize TUNConfigurator_configure.assign a.1 ifr address pfx none r1.2 = r2 at s2 o2 p2 ⊢
  rw [s2]
  have s3 := link_ok a.1 r2.2 (by rw [p2, p1]; exact hka) (by rw [o2, o1]; exact m3)
  simp only [s3, t1]

/-- On a raising path the descriptors left open are those left by the acquisition calls minus
the three that are closed. -/
theorem configure_openFds (junk : List Nat) (name : Option String)
    (address : Option (List Nat)) (pfx : Int) (k0 : Kernel) (error : Option String) (err : Nat)
    (hr : (TUNConfigurator_configure junk name address pfx k0).1 = .raised error err) :
    (TUNConfigurator_configure junk name address pfx k0).2.openFds =
      (((TUNConfigurator_configure.acquire (TUNConfigurator_configure.ppaOfName name)
          k0).2.openFds.erase
        (TUNConfigurator_configure.acquire (TUNConfigurator_configure.ppaOfName name)
          k0).1.tunFd).erase
        (TUNConfigurator_configure.acquire (TUNConfigurator_configure.ppaOfName name)
          k0).1.ipFd).erase
        (TUNConfigurator_configure.acquire (TUNConfigurator_configure.ppaOfName name)
          k0).1.tunFd2 := by
  revert hr
  simp only [TUNConfigurator_configure]
  generalize TUNConfigurator_configure.acquire (TUNConfigurator_configure.ppaOfName name) k0 = a
  split_ifs with hfail
  · intro _; exact unwind_openFds a.1 a.2
  · generalize Lifreq.mk ("tun" ++ toString a.1.ppa) a.1.ppa .IFF_IPV6 none junk = ifr
    obtain ⟨o1, -⟩ := attach_openFds a.1 ifr a.2
    generalize TUNConfigurator_configure.attach a.1 ifr a.2 = r1 at o1 ⊢
    obtain ⟨o2, -⟩ := assign_openFds a.1 ifr address pfx r1.1 r1.2
    generalize TUNConfigurator_configure.assign a.1 ifr address pfx r1.1 r1.2 = r2 at o2 ⊢
    obtain ⟨o3, -⟩ := link_openFds a.1 r2.1 r2.2
    generalize TUNConfigurator_configure.link a.1 r2.1 r2.2 = r3 at o3 ⊢
    cases h3 : r3.1 with
    | none => simp
    | some e =>
      intro _
      simp only [unwind_openFds, o3, o2, o1]

/-- On the returning path no descriptor is closed: the descriptors open on return are those
left by the acquisition calls. -/
theorem configure_openFds_returned (junk : List Nat) (name : Option String)
    (address : Option (List Nat)) (pfx : Int) (k0 : Kernel) (fd : Int)
    (hr : (TUNConfigurator_configure junk name address pfx k0).1 = .returned fd) :
    (TUNConfigurator_configure junk name address pfx k0).2.openFds =
      (TUNConfigurator_configure.acquire (TUNConfigurator_configure.ppaOfName name)
        k0).2.openFds := by
  revert hr
  simp only [TUNConfigurator_configure]
  generalize TUNConfigurator_configure.acquire (TUNConfigurator_configure.ppaOfName name) k0 = a
  split_ifs with hfail
  · intro hr; cases hr
  · generalize Lifreq.mk ("tun" ++ toString a.1.ppa) a.1.ppa .IFF_IPV6 none junk = ifr
    obtain ⟨o1, -⟩ := attach_openFds a.1 ifr a.2
    generalize TUNConfigurator_configure.attach a.1 ifr a.2 = r1 at o1 ⊢
    obtain ⟨o2, -⟩ := assign_openFds a.1 ifr address pfx r1.1 r1.2
    generalize TUNConfigurator_configure.assign a.1 ifr address pfx r1.1 r1.2 = r2 at o2 ⊢
    obtain ⟨o3, -⟩ := link_openFds a.1 r2.1 r2.2
    generalize TUNConfigurator_configure.link a.1 r2.1 r2.2 = r3 at o3 ⊢
    cases h3 : r3.1 with
    | none =>
      intro _
      simp only [o3, o2, o1]
    | some e =>
      intro hr; cases hr

theorem boot_wellFormed (plan : Nat → Outcome) (n errno0 : Nat) :
    (Kernel.boot plan n errno0).WellFormed := by
  intro x hx
  simp only [Kernel.boot, List.mem_map, List.mem_range] at hx
  obtain ⟨a, ha, rfl⟩ := hx
  exact ⟨Int.ofNat_nonneg a, Int.ofNat_lt.mpr ha⟩

/-! ## Facts about recorded runs -/

theorem openedFds_append (l₁ l₂ : List Event) :
    openedFds (l₁ ++ l₂) = openedFds l₁ ++ openedFds l₂ := by
  simp [openedFds]

theorem closeCount_append (l₁ l₂ : List Event) (fd : Int) :
    closeCount (l₁ ++ l₂) fd = closeCount l₁ fd + closeCount l₂ fd := by
  simp [closeCount]

/-- The events of a `Provision` path are `ioctl` calls: none opens or closes a descriptor. -/
theorem provision_ioctls {h : Handles} {ifr : Lifreq} {address : Option (List Nat)}
    {status : Option String} {mid : List Event} (hp : Provision h ifr address status mid) :
    openedFds mid = [] ∧ (∀ fd, closeCount mid fd = 0) ∧ ∀ e ∈ mid, e.isClose = false := by
  cases hp <;> simp [openedFds, closeCount, Event.openedFd, Event.closes, Event.isClose]

theorem unwound_closes {h : Handles} {cl : List Event} (hu : Unwound h cl) :
    openedFds cl = [] ∧
      (∀ fd, closeCount cl fd =
        (if h.tunFd = fd then 1 else 0) + (if h.ipFd = fd then 1 else 0) +
          (if h.tunFd2 = fd then 1 else 0)) ∧
      ClosesOnly cl := by
  obtain ⟨r1, r2, r3, f1, f2, f3, rfl⟩ := hu
  refine ⟨by simp [openedFds, Event.openedFd], ?_, by simp [ClosesOnly, Event.isClose]⟩
  intro fd
  simp only [closeCount, List.countP_cons, List.countP_nil, Event.closes, decide_eq_true_eq]
  omega

theorem acquired_opened (h : Handles) (c : Call) (e1 e2 e3 e4 : Nat) (fd : Int)
    (hc : ∃ d req arg, c = .sys_ioctl d req arg)
    (hfd : fd ∈ openedFds
      [{ call := .sys_open "/dev/tun", ret := h.tunFd, errno := e1 },
       { call := c, ret := h.ppa, errno := e2 },
       { call := .sys_open "/dev/ip6", ret := h.ipFd, errno := e3 },
       { call := .sys_open "/dev/tun", ret := h.tunFd2, errno := e4 }]) :
    0 ≤ fd ∧ (fd = h.tunFd ∨ fd = h.ipFd ∨ fd = h.tunFd2) ∧
      closeCount
        [{ call := .sys_open "/dev/tun", ret := h.tunFd, errno := e1 },
         { call := c, ret := h.ppa, errno := e2 },
         { call := .sys_open "/dev/ip6", ret := h.ipFd, errno := e3 },
         { call := .sys_open "/dev/tun", ret := h.tunFd2, errno := e4 }] fd = 0 := by
  obtain ⟨d, req, arg, rfl⟩ := hc
  simp only [openedFds, List.filterMap_cons, List.filterMap_nil, Event.openedFd] at hfd
  refine ⟨?_, ?_, by simp [closeCount, Event.closes]⟩
  · split_ifs at hfd <;> simp at hfd <;> omega
  · split_ifs at hfd <;> simp at hfd <;> omega

theorem provision_absent {h : Handles} {ifr : Lifreq} {status : Option String}
    {mid : List Event} (hp : Provision h ifr none status mid) :
    ∀ e ∈ mid, e.isIoctl .SIOCSLIFNETMASK = false ∧ e.isIoctl .SIOCSLIFADDR = false := by
  cases hp <;> simp_all [Event.isIoctl]

/-- The acquisition calls and the closes are neither netmask, address nor link `ioctl`s, and
the closes are not failures of an `open` or `ioctl`. -/
theorem acquired_not_assign (h : Handles) (c : Call) (e1 e2 e3 e4 : Nat) (p0 : Int)
    (hc : c = .sys_ioctl h.tunFd .TUNSETPPA (.int p0) ∧ p0 ≠ 0 ∨
      c = .sys_ioctl h.tunFd .TUNNEWPPA (.int (-1)) ∧ p0 = 0) :
    ∀ e ∈ [({ call := .sys_open "/dev/tun", ret := h.tunFd, errno := e1 } : Event),
        { call := c, ret := h.ppa, errno := e2 },
        { call := .sys_open "/dev/ip6", ret := h.ipFd, errno := e3 },
        { call := .sys_open "/dev/tun", ret := h.tunFd2, errno := e4 }],
      e.isIoctl .SIOCSLIFNETMASK = false ∧ e.isIoctl .SIOCSLIFADDR = false ∧
        e.isIoctl .I_LINK = false := by
  rcases hc with ⟨rfl, -⟩ | ⟨rfl, -⟩ <;> simp [Event.isIoctl]

theorem unwound_not_assign {h : Handles} {cl : List Event} (hu : Unwound h cl) :
    ∀ e ∈ cl, e.isIoctl .SIOCSLIFNETMASK = false ∧ e.isIoctl .SIOCSLIFADDR = false ∧
      e.isIoctl .I_LINK = false ∧ e.isFailure = false := by
  obtain ⟨r1, r2, r3, f1, f2, f3, rfl⟩ := hu
  simp [Event.isIoctl, Event.isFailure, Event.isOpenOrIoctl]

theorem onlyAfter_append_left (p q : Event → Bool) (l₁ l₂ : List Event)
    (h1 : ∀ e ∈ l₁, q e = false) (h2 : OnlyAfter p q l₂) : OnlyAfter p q (l₁ ++ l₂) := by
  induction l₁ with
  | nil => exact h2
  | cons e l ih =>
    exact Or.inr ⟨h1 e (List.mem_cons_self _ _),
      ih (fun x hx => h1 x (List.mem_cons_of_mem _ hx))⟩

theorem onlyAfter_append_right (p q : Event → Bool) (l₁ l₂ : List Event)
    (h1 : OnlyAfter p q l₁) (h2 : ∀ e ∈ l₂, q e = false) : OnlyAfter p q (l₁ ++ l₂) := by
  induction l₁ with
  | nil =>
    induction l₂ with
    | nil => trivial
    | cons e l ih =>
      exact Or.inr ⟨h2 e (List.mem_cons_self _ _), ih (fun x hx => h2 x (List.mem_cons_of_mem _ hx))⟩
  | cons e l ih =>
    rcases h1 with h1 | ⟨h1, h3⟩
    · exact Or.inl h1
    · exact Or.inr ⟨h1, ih h3⟩

/-- On every `Provision` path the address `ioctl` comes after a successful netmask `ioctl`; a
failed netmask `ioctl` ends the path with the netmask message, and a failed address `ioctl` is
the only failure of the path and ends it with the address message. -/
theorem provision_assign {h : Handles} {ifr : Lifreq} {address : Option (List Nat)}
    {status : Option String} {mid : List Event} (hp : Provision h ifr address status mid) :
    OnlyAfter (fun e => e.isIoctl .SIOCSLIFNETMASK && decide (0 ≤ e.ret))
        (Event.isIoctl .SIOCSLIFADDR) mid ∧
      ((∃ e ∈ mid, e.isIoctl .SIOCSLIFNETMASK = true ∧ e.ret < 0) →
        (∀ e ∈ mid, e.isIoctl .SIOCSLIFADDR = false ∧ e.isIoctl .I_LINK = false) ∧
          status = some "ioctl(SIOCSLIFNETMASK) (setting netmask) [%s]") ∧
      ((∃ e ∈ mid, e.isIoctl .SIOCSLIFADDR = true ∧ e.ret < 0) →
        (∀ e ∈ mid, e.isFailure = true → e.isIoctl .SIOCSLIFADDR = true) ∧
          status = some "ioctl(SIOCSLIFADDR) (setting ipv6 address) [%s]") := by
  cases hp <;> refine ⟨?_, ?_, ?_⟩ <;>
    simp [OnlyAfter, Event.isIoctl, Event.isFailure, Event.isOpenOrIoctl] <;>
    first | assumption | omega

theorem acquired_not_failure (h : Handles) (c : Call) (e1 e2 e3 e4 : Nat)
    (hok : 0 ≤ h.tunFd ∧ 0 ≤ h.ipFd ∧ 0 ≤ h.ppa ∧ 0 ≤ h.tunFd2) :
    ∀ e ∈ [({ call := .sys_open "/dev/tun", ret := h.tunFd, errno := e1 } : Event),
        { call := c, ret := h.ppa, errno := e2 },
        { call := .sys_open "/dev/ip6", ret := h.ipFd, errno := e3 },
        { call := .sys_open "/dev/tun", ret := h.tunFd2, errno := e4 }],
      e.isFailure = false := by
  intro e he
  simp only [List.mem_cons, List.mem_singleton, List.not_mem_nil, or_false] at he
  rcases he with rfl | rfl | rfl | rfl <;>
    simp only [Event.isFailure, Bool.and_eq_false_iff, decide_eq_false_iff_not, not_lt] <;>
    right <;> omega

/-- What `OnlyAfter` says in terms of positions, for disjoint `p` and `q`. -/
theorem onlyAfter_index (p q : Event → Bool) (hpq : ∀ e, p e = true → q e = false) :
    ∀ log : List Event, OnlyAfter p q log →
      ∀ (i : Nat) (e : Event), log[i]? = some e → q e = true →
        ∃ (j : Nat) (e' : Event), j < i ∧ log[j]? = some e' ∧ p e' = true := by
  intro log
  induction log with
  | nil => intro _ i e he; simp at he
  | cons e0 rest ih =>
    intro ho i e he hq
    cases i with
    | zero =>
      simp only [List.getElem?_cons_zero, Option.some.injEq] at he
      subst he
      rcases ho with hp | ⟨hq0, -⟩
      · rw [hpq _ hp] at hq; cases hq
      · rw [hq0] at hq; cases hq
    | succ k =>
      simp only [List.getElem?_cons_succ] at he
      rcases ho with hp | ⟨-, hr⟩
      · exact ⟨0, e0, Nat.succ_pos k, List.getElem?_cons_zero, hp⟩
      · obtain ⟨j, e', hj, hje, hpe⟩ := ih hr k e he hq
        exact ⟨j + 1, e', Nat.succ_lt_succ hj, by simpa using hje, hpe⟩

/-- What `AbortsAtFirstFailure` says in terms of positions. -/
theorem abortsAtFirstFailure_index :
    ∀ log : List Event, AbortsAtFirstFailure log →
      ∀ (i j : Nat) (ei ej : Event), i < j → log[i]? = some ei → log[j]? = some ej →
        ei.isFailure = true → ej.isClose = true := by
  intro log
  induction log with
  | nil => intro _ i j ei ej _ hi; simp at hi
  | cons e0 rest ih =>
    intro ha i j ei ej hij hi hj hf
    cases j with
    | zero => omega
    | succ j' =>
      simp only [List.getElem?_cons_succ] at hj
      cases i with
      | zero =>
        simp only [List.getElem?_cons_zero, Option.some.injEq] at hi
        subst hi
        exact ha.1 hf ej (List.getElem?_mem hj)
      | succ i' =>
        simp only [List.getElem?_cons_succ] at hi
        exact ih ha.2 i' j' ei ej (by omega) hi hj hf

/-! ## The claims -/

/-- C1. The claim says that after `maskForPrefix(mask, p)` the buffer reads as `p` one-bits
followed by `128 - p` zero-bits. The code does not do that: the loop steps `i` by 8 and writes
`mask[i]`, so only bytes 0 and 8 are ever written. On a zeroed buffer with prefix 128 the
result is `ff 00 00 00 00 00 00 00 ff 00 00 00 00 00 00 00`, which is not the all-ones mask
(bit 8 is clear). -/
theorem maskForPrefix_128_not_all_ones :
    maskForPrefix (List.replicate 16 0x00) 128 =
        [0xff, 0, 0, 0, 0, 0, 0, 0, 0xff, 0, 0, 0, 0, 0, 0, 0] ∧
      bitAt (maskForPrefix (List.replicate 16 0x00) 128) 8 = false ∧
      ¬ IsPrefixMask (maskForPrefix (List.replicate 16 0x00) 128) 128 := by
  refine ⟨by decide, by decide, fun h => ?_⟩
  have := (h.2 8 (by decide)).2 (by decide)
  revert this
  decide

/-- C2. Whenever `TUNConfigurator_configure` raises an error, every descriptor that an `open`
of the call returned successfully is the argument of exactly one `close` in the log, and the
descriptors open afterwards are exactly those that were open before the call: nothing that
was opened is leaked. -/
theorem configure_failure_closes_every_descriptor (plan : Nat → Outcome) (n errno0 : Nat)
    (junk : List Nat) (name : Option String) (address : Option (List Nat)) (prefixLen : Int)
    (error : Option String) (err : Nat)
    (hr : (TUNConfigurator_configure junk name address prefixLen
      (Kernel.boot plan n errno0)).1 = .raised error err) :
    (∀ fd ∈ openedFds (TUNConfigurator_configure junk name address prefixLen
        (Kernel.boot plan n errno0)).2.log,
      closeCount (TUNConfigurator_configure junk name address prefixLen
        (Kernel.boot plan n errno0)).2.log fd = 1) ∧
    (TUNConfigurator_configure junk name address prefixLen
        (Kernel.boot plan n errno0)).2.openFds = (Kernel.boot plan n errno0).openFds := by
  obtain ⟨d1, d2, hcl⟩ := acquire_fds (TUNConfigurator_configure.ppaOfName name)
    (Kernel.boot plan n errno0) (boot_wellFormed plan n errno0)
  refine ⟨?_, by rw [configure_openFds _ _ _ _ _ _ _ hr]; exact hcl⟩
  obtain ⟨h, c, e1, e2, e3, e4, hh, hc, hrun⟩ :=
    configure_cases junk name address prefixLen (Kernel.boot plan n errno0)
  simp only [← hh] at d1 d2
  clear hh hcl
  have hb : (Kernel.boot plan n errno0).log = [] := rfl
  rw [hb] at hrun
  simp only [List.nil_append] at hrun
  have hc' : ∃ d req arg, c = .sys_ioctl d req arg := by
    rcases hc with ⟨rfl, -⟩ | ⟨rfl, -⟩ <;> exact ⟨_, _, _, rfl⟩
  intro fd
  rcases hrun with ⟨hfail, err', cl, hu, hres, hlog⟩ |
      ⟨hok, ifr, status, mid, hprov, ⟨rfl, hres, hlog⟩ | ⟨m, err', cl, rfl, hu, hres, hlog⟩⟩
  · obtain ⟨u1, u2, -⟩ := unwound_closes hu
    rw [hlog, openedFds_append, closeCount_append, u1, List.append_nil, u2]
    intro hfd
    obtain ⟨g0, g1, g2⟩ := acquired_opened h c e1 e2 e3 e4 fd hc' hfd
    rw [g2]
    split_ifs <;> omega
  · rw [hres] at hr
    cases hr
  · obtain ⟨u1, u2, -⟩ := unwound_closes hu
    obtain ⟨p1, p2, -⟩ := provision_ioctls hprov
    rw [hlog, openedFds_append, openedFds_append, closeCount_append, closeCount_append, u1, p1,
      p2, List.append_nil, List.append_nil, u2]
    intro hfd
    obtain ⟨g0, g1, g2⟩ := acquired_opened h c e1 e2 e3 e4 fd hc' hfd
    rw [g2]
    split_ifs <;> omega

/-- Witness for C2: the run in which only `I_PUSH` (call number 5) fails, with error code 7.
Three descriptors were opened (3, 4 and 5) and each is closed exactly once. -/
theorem configure_failure_closes_every_descriptor_witness :
    (TUNConfigurator_configure [] none none 64 (Kernel.boot (Plan.failAt 5 7) 3 0)).1 =
        .raised (some "ioctl(I_PUSH) [%s]") 7 ∧
      openedFds (TUNConfigurator_configure [] none none 64
        (Kernel.boot (Plan.failAt 5 7) 3 0)).2.log = [3, 4, 5] ∧
      ((∀ fd ∈ openedFds (TUNConfigurator_configure [] none none 64
          (Kernel.boot (Plan.failAt 5 7) 3 0)).2.log,
        closeCount (TUNConfigurator_configure [] none none 64
          (Kernel.boot (Plan.failAt 5 7) 3 0)).2.log fd = 1) ∧
      (TUNConfigurator_configure [] none none 64
          (Kernel.boot (Plan.failAt 5 7) 3 0)).2.openFds =
        (Kernel.boot (Plan.failAt 5 7) 3 0).openFds) :=
  ⟨by decide, by decide,
    configure_failure_closes_every_descriptor (Plan.failAt 5 7) 3 0 [] none none 64
      (some "ioctl(I_PUSH) [%s]") 7 (by decide)⟩

/-- C4. The claim says that the hint `"tun0"` makes the binding step issue `TUNSETPPA` with
PPA 0. The code does not: `atoi("tun0")` is 0, so `ppa` stays 0 and the test `if (ppa)` takes
the `TUNNEWPPA` branch. Whatever the kernel does, with the hint `"tun0"` the log contains
`ioctl(fd, TUNNEWPPA, -1)` and no `TUNSETPPA` at all. -/
theorem configure_tun0_allocates_fresh (plan : Nat → Outcome) (n errno0 : Nat)
    (junk : List Nat) (address : Option (List Nat)) (prefixLen : Int) :
    atoi "tun0".toList = 0 ∧
    TUNConfigurator_configure.ppaOfName (some "tun0") = 0 ∧
    (∃ e ∈ (TUNConfigurator_configure junk (some "tun0") address prefixLen
        (Kernel.boot plan n errno0)).2.log, ∃ fd, e.call = .sys_ioctl fd .TUNNEWPPA (.int (-1))) ∧
    ∀ e ∈ (TUNConfigurator_configure junk (some "tun0") address prefixLen
        (Kernel.boot plan n errno0)).2.log, e.isIoctl .TUNSETPPA = false := by
  have hp : TUNConfigurator_configure.ppaOfName (some "tun0") = 0 := by decide
  refine ⟨by decide, hp, ?_⟩
  obtain ⟨h, c, e1, e2, e3, e4, -, hc, hrun⟩ :=
    configure_cases junk (some "tun0") address prefixLen (Kernel.boot plan n errno0)
  have hb : (Kernel.boot plan n errno0).log = [] := rfl
  rw [hb] at hrun
  simp only [List.nil_append] at hrun
  rcases hc with ⟨-, hne⟩ | ⟨rfl, -⟩
  · exact absurd hp hne
  rcases hrun with ⟨hfail, err', cl, ⟨r1, r2, r3, f1, f2, f3, rfl⟩, hres, hlog⟩ |
      ⟨hok, ifr, status, mid, hprov, ⟨rfl, hres, hlog⟩ |
        ⟨m, err', cl, rfl, ⟨r1, r2, r3, f1, f2, f3, rfl⟩, hres, hlog⟩⟩ <;>
    rw [hlog] <;> (try cases hprov) <;> simp [Event.isIoctl]

/-- C5. The claim says that the message names the first step, in program order, whose kernel
call failed. When the binding `ioctl` (call number 1) and the open of `/dev/ip6` (call number
2) both fail, the first failure in program order is the binding `ioctl`, but lines 85-93 test
`ipFd` before `ppa` and the message raised is the one of the `/dev/ip6` open. -/
theorem configure_bind_and_ip6_fail :
    (TUNConfigurator_configure [] none none 64
        (Kernel.boot (Plan.failBoth 1 16 2 24) 3 0)).2.log.map (fun e => (e.call, e.ret)) =
      [(.sys_open "/dev/tun", 3), (.sys_ioctl 3 .TUNNEWPPA (.int (-1)), -1),
       (.sys_open "/dev/ip6", -1), (.sys_open "/dev/tun", 4),
       (.sys_close 3, 0), (.sys_close (-1), -1), (.sys_close 4, 0)] ∧
    (TUNConfigurator_configure [] none none 64
        (Kernel.boot (Plan.failBoth 1 16 2 24) 3 0)).1 =
      .raised (some "open(\"/dev/ip6\") [%s]") 24 ∧
    (TUNConfigurator_configure [] none none 64
        (Kernel.boot (Plan.failBoth 1 16 2 24) 3 0)).1 ≠
      .raised (some "ioctl(TUNNEWPPA) [%s]") 16 := by
  refine ⟨by decide, by decide, by decide⟩

/-- C6. The claim says that the error code in the message is the one set by the kernel call
the message names. When only the control open fails, with error code 2, the binding `ioctl`
is still issued, on descriptor -1, and fails with `EBADF`; `errno` is read at line 79, after
all four calls, so the message names the control open but carries `EBADF`. -/
theorem configure_reports_later_errno :
    (TUNConfigurator_configure [] none none 64 (Kernel.boot (Plan.failAt 0 2) 3 0)).2.log.take 2 =
      [{ call := .sys_open "/dev/tun", ret := -1, errno := 2 },
       { call := .sys_ioctl (-1) .TUNNEWPPA (.int (-1)), ret := -1, errno := EBADF }] ∧
    (TUNConfigurator_configure [] none none 64 (Kernel.boot (Plan.failAt 0 2) 3 0)).1 =
      .raised (some "open(\"/dev/tun\") [%s]") EBADF ∧
    EBADF ≠ 2 := by
  refine ⟨by decide, by decide, by decide⟩

/-- C7. When the address argument is absent, whatever the name hint, the prefix length and
the kernel's behaviour, the log contains neither a `SIOCSLIFNETMASK` nor a `SIOCSLIFADDR`
`ioctl`. If moreover every kernel call succeeds, the call does not raise: it returns the
lowest free descriptor `n`, and that value is a handle the call itself obtained and that is
still open on return. The log is exactly the eight calls open of `/dev/tun` (returning `n`),
binding `ioctl` on `n`, open of `/dev/ip6` (returning `n + 1`), second open of `/dev/tun`
(returning `n + 2`), `I_SRDOPT` on `n`, `I_PUSH` and `SIOCSLIFNAME` on `n + 2`, and `I_LINK`
of `n + 2` under `n + 1`, each returning a non-negative value; nothing is closed, and the
descriptors open on return are those open before the call followed by `n`, `n + 1` and
`n + 2`. -/
theorem configure_without_address (plan : Nat → Outcome) (n errno0 : Nat)
    (junk : List Nat) (name : Option String) (prefixLen : Int) :
    (∀ e ∈ (TUNConfigurator_configure junk name none prefixLen
        (Kernel.boot plan n errno0)).2.log,
      e.isIoctl .SIOCSLIFNETMASK = false ∧ e.isIoctl .SIOCSLIFADDR = false) ∧
    (AllSucceed plan →
      (TUNConfigurator_configure junk name none prefixLen (Kernel.boot plan n errno0)).1 =
        .returned (n : Int) ∧
      (∃ e1 e2 e3 e4 e5 e6 e7 e8 : Event,
        (TUNConfigurator_configure junk name none prefixLen
          (Kernel.boot plan n errno0)).2.log = [e1, e2, e3, e4, e5, e6, e7, e8] ∧
        e1.call = .sys_open "/dev/tun" ∧ e1.ret = n ∧
        (e2.call = .sys_ioctl n .TUNSETPPA (.int (TUNConfigurator_configure.ppaOfName name)) ∨
          e2.call = .sys_ioctl n .TUNNEWPPA (.int (-1))) ∧ 0 ≤ e2.ret ∧
        e3.call = .sys_open "/dev/ip6" ∧ e3.ret = n + 1 ∧
        e4.call = .sys_open "/dev/tun" ∧ e4.ret = n + 2 ∧
        e5.call = .sys_ioctl n .I_SRDOPT .RMSGD ∧ 0 ≤ e5.ret ∧
        e6.call = .sys_ioctl (n + 2) .I_PUSH (.str "ip") ∧ 0 ≤ e6.ret ∧
        (∃ ifr, e7.call = .sys_ioctl (n + 2) .SIOCSLIFNAME (.lifreq ifr)) ∧ 0 ≤ e7.ret ∧
        e8.call = .sys_ioctl (n + 1) .I_LINK (.int (n + 2)) ∧ 0 ≤ e8.ret ∧
        (TUNConfigurator_configure junk name none prefixLen
          (Kernel.boot plan n errno0)).1 = .returned e1.ret) ∧
      (∀ e ∈ (TUNConfigurator_configure junk name none prefixLen
          (Kernel.boot plan n errno0)).2.log, e.isClose = false ∧ e.isFailure = false) ∧
      (TUNConfigurator_configure junk name none prefixLen (Kernel.boot plan n errno0)).2.openFds =
        (Kernel.boot plan n errno0).openFds ++ [(n : Int), (n : Int) + 1, (n : Int) + 2] ∧
      (n : Int) ∈ (TUNConfigurator_configure junk name none prefixLen
        (Kernel.boot plan n errno0)).2.openFds ∧
      (n : Int) ∉ (Kernel.boot plan n errno0).openFds) := by
  obtain ⟨h, c, e1, e2, e3, e4, hh, hc, hrun⟩ :=
    configure_cases junk name none prefixLen (Kernel.boot plan n errno0)
  have hb : (Kernel.boot plan n errno0).log = [] := rfl
  rw [hb] at hrun
  simp only [List.nil_append] at hrun
  have hacq := acquired_not_assign h c e1 e2 e3 e4 _ hc
  constructor
  · intro e he
    rcases hrun with ⟨hfail, err', cl, hu, hres, hlog⟩ |
        ⟨hok, ifr, status, mid, hprov, ⟨rfl, hres, hlog⟩ | ⟨m, err', cl, rfl, hu, hres, hlog⟩⟩
    · rw [hlog, List.mem_append] at he
      rcases he with he | he
      · exact ⟨(hacq e he).1, (hacq e he).2.1⟩
      · exact ⟨(unwound_not_assign hu e he).1, (unwound_not_assign hu e he).2.1⟩
    · rw [hlog, List.mem_append] at he
      rcases he with he | he
      · exact ⟨(hacq e he).1, (hacq e he).2.1⟩
      · exact provision_absent hprov e he
    · rw [hlog, List.mem_append, List.mem_append] at he
      rcases he with he | he | he
      · exact ⟨(hacq e he).1, (hacq e he).2.1⟩
      · exact provision_absent hprov e he
      · exact ⟨(unwound_not_assign hu e he).1, (unwound_not_assign hu e he).2.1⟩
  · intro hk
    have hret := configure_ok junk name none prefixLen (Kernel.boot plan n errno0) hk
    have hn : (Kernel.boot plan n errno0).nextFd = n := rfl
    rw [hn] at hret
    obtain ⟨t1, t2, t3, t4, hto⟩ :=
      acquire_ok (TUNConfigurator_configure.ppaOfName name) (Kernel.boot plan n errno0) hk
    have hfds := configure_openFds_returned junk name none prefixLen
      (Kernel.boot plan n errno0) _ hret
    rw [hto, hn] at hfds
    rw [← hh, hn] at t1 t2 t3
    rw [← hh] at t4
    clear hh hto hacq
    have hnot : (n : Int) ∉ (Kernel.boot plan n errno0).openFds := fun hm => by
      have := (boot_wellFormed plan n errno0 _ hm).2
      rw [hn] at this
      omega
    refine ⟨hret, ?_, ?_, hfds, by rw [hfds]; simp, hnot⟩
    · rcases hrun with ⟨hfail, err', cl, hu, hres, hlog⟩ |
          ⟨hok, ifr, status, mid, hprov, ⟨rfl, hres, hlog⟩ | ⟨m, err', cl, rfl, hu, hres, hlog⟩⟩
      · rw [hres] at hret; cases hret
      · obtain ⟨tf, pp, ip, tf2⟩ := h
        simp only at t1 t2 t3 t4 hc hlog hprov hres
        subst t1 t2 t3
        cases hprov with
        | linked a8 a9 r5 r6 r7 r8 r9 r10 x5 x6 x7 x8 x9 x10 ha => cases ha
        | linkedBare r5 r6 r7 r10 x5 x6 x7 x10 _ h5 h6 h7 h10 =>
          refine ⟨_, _, _, _, _, _, _, _, hlog, rfl, rfl, ?_, t4, rfl, rfl, rfl, rfl, rfl, h5,
            rfl, h6, ⟨ifr, rfl⟩, h7, rfl, h10, hres⟩
          rcases hc with ⟨rfl, -⟩ | ⟨rfl, -⟩
          · exact Or.inl rfl
          · exact Or.inr rfl
      · rw [hres] at hret; cases hret
    · intro e he
      rcases hrun with ⟨hfail, err', cl, hu, hres, hlog⟩ |
          ⟨hok, ifr, status, mid, hprov, ⟨rfl, hres, hlog⟩ | ⟨m, err', cl, rfl, hu, hres, hlog⟩⟩
      · rw [hres] at hret; cases hret
      · rw [hlog, List.mem_append] at he
        rcases he with he | he
        · refine ⟨?_, acquired_not_failure h c e1 e2 e3 e4 hok e he⟩
          simp only [List.mem_cons, List.mem_singleton, List.not_mem_nil, or_false] at he
          rcases hc with ⟨rfl, -⟩ | ⟨rfl, -⟩ <;> rcases he with rfl | rfl | rfl | rfl <;> rfl
        · revert e
          cases hprov with
          | linked a8 a9 r5 r6 r7 r8 r9 r10 x5 x6 x7 x8 x9 x10 ha => cases ha
          | linkedBare r5 r6 r7 r10 x5 x6 x7 x10 _ h5 h6 h7 h10 =>
            intro e he
            simp only [List.mem_cons, List.mem_singleton, List.not_mem_nil, or_false] at he
            rcases he with rfl | rfl | rfl | rfl <;>
              simp [Event.isClose, Event.isFailure, Event.isOpenOrIoctl] <;> omega
      · rw [hres] at hret; cases hret

/-- Witness for C7: with the hint `"tun0"`, no address and every call succeeding, the call
returns descriptor 3, which its first open returned and which is open on return; the eight
calls of the log are listed with their return values. -/
theorem configure_without_address_witness :
    AllSucceed Plan.allOk ∧
      (TUNConfigurator_configure [] (some "tun0") none 64 (Kernel.boot Plan.allOk 3 0)).2.log.map
          (fun e => (e.call, e.ret)) =
        [(.sys_open "/dev/tun", 3), (.sys_ioctl 3 .TUNNEWPPA (.int (-1)), 0),
         (.sys_open "/dev/ip6", 4), (.sys_open "/dev/tun", 5),
         (.sys_ioctl 3 .I_SRDOPT .RMSGD, 0), (.sys_ioctl 5 .I_PUSH (.str "ip"), 0),
         (.sys_ioctl 5 .SIOCSLIFNAME (.lifreq
            { lifr_name := "tun0", lifr_ppa := 0, lifr_flags := .IFF_IPV6, ss_family := none,
              sin6_addr := [] }), 0),
         (.sys_ioctl 4 .I_LINK (.int 5), 0)] ∧
      (TUNConfigurator_configure [] (some "tun0") none 64
          (Kernel.boot Plan.allOk 3 0)).2.openFds = [0, 1, 2, 3, 4, 5] ∧
      ((TUNConfigurator_configure [] (some "tun0") none 64 (Kernel.boot Plan.allOk 3 0)).1 =
          .returned ((3 : Nat) : Int) ∧
        (∃ e1 e2 e3 e4 e5 e6 e7 e8 : Event,
          (TUNConfigurator_configure [] (some "tun0") none 64
            (Kernel.boot Plan.allOk 3 0)).2.log = [e1, e2, e3, e4, e5, e6, e7, e8] ∧
          e1.call = .sys_open "/dev/tun" ∧ e1.ret = (3 : Nat) ∧
          (e2.call = .sys_ioctl (3 : Nat) .TUNSETPPA
              (.int (TUNConfigurator_configure.ppaOfName (some "tun0"))) ∨
            e2.call = .sys_ioctl (3 : Nat) .TUNNEWPPA (.int (-1))) ∧ 0 ≤ e2.ret ∧
          e3.call = .sys_open "/dev/ip6" ∧ e3.ret = (3 : Nat) + 1 ∧
          e4.call = .sys_open "/dev/tun" ∧ e4.ret = (3 : Nat) + 2 ∧
          e5.call = .sys_ioctl (3 : Nat) .I_SRDOPT .RMSGD ∧ 0 ≤ e5.ret ∧
          e6.call = .sys_ioctl ((3 : Nat) + 2) .I_PUSH (.str "ip") ∧ 0 ≤ e6.ret ∧
          (∃ ifr, e7.call = .sys_ioctl ((3 : Nat) + 2) .SIOCSLIFNAME (.lifreq ifr)) ∧
          0 ≤ e7.ret ∧
          e8.call = .sys_ioctl ((3 : Nat) + 1) .I_LINK (.int ((3 : Nat) + 2)) ∧ 0 ≤ e8.ret ∧
          (TUNConfigurator_configure [] (some "tun0") none 64
            (Kernel.boot Plan.allOk 3 0)).1 = .returned e1.ret) ∧
        (∀ e ∈ (TUNConfigurator_configure [] (some "tun0") none 64
            (Kernel.boot Plan.allOk 3 0)).2.log, e.isClose = false ∧ e.isFailure = false) ∧
        (TUNConfigurator_configure [] (some "tun0") none 64
            (Kernel.boot Plan.allOk 3 0)).2.openFds =
          (Kernel.boot Plan.allOk 3 0).openFds ++
            [((3 : Nat) : Int), ((3 : Nat) : Int) + 1, ((3 : Nat) : Int) + 2] ∧
        ((3 : Nat) : Int) ∈ (TUNConfigurator_configure [] (some "tun0") none 64
          (Kernel.boot Plan.allOk 3 0)).2.openFds ∧
        ((3 : Nat) : Int) ∉ (Kernel.boot Plan.allOk 3 0).openFds) :=
  ⟨fun _ => ⟨0, rfl⟩, by decide, by decide,
    (configure_without_address Plan.allOk 3 0 [] (some "tun0") 64).2 (fun _ => ⟨0, rfl⟩)⟩

/-- C8. In every run: (1) each `SIOCSLIFADDR` `ioctl` of the log has a `SIOCSLIFNETMASK`
`ioctl` at an earlier position that returned a non-negative value; (2) if a `SIOCSLIFNETMASK`
`ioctl` failed, the log contains no `SIOCSLIFADDR` and no `I_LINK` `ioctl`, and the netmask
message is raised; (3) if a `SIOCSLIFADDR` `ioctl` failed, it is the only `open` or `ioctl`
of the run that failed and the address message is raised; (4) the two messages differ. -/
theorem configure_netmask_before_address (plan : Nat → Outcome) (n errno0 : Nat)
    (junk : List Nat) (name : Option String) (address : Option (List Nat)) (prefixLen : Int) :
    (∀ (i : Nat) (e : Event),
        (TUNConfigurator_configure junk name address prefixLen
          (Kernel.boot plan n errno0)).2.log[i]? = some e →
        e.isIoctl .SIOCSLIFADDR = true →
        ∃ (j : Nat) (e' : Event), j < i ∧
          (TUNConfigurator_configure junk name address prefixLen
            (Kernel.boot plan n errno0)).2.log[j]? = some e' ∧
          e'.isIoctl .SIOCSLIFNETMASK = true ∧ 0 ≤ e'.ret) ∧
      ((∃ e ∈ (TUNConfigurator_configure junk name address prefixLen
            (Kernel.boot plan n errno0)).2.log, e.isIoctl .SIOCSLIFNETMASK = true ∧ e.ret < 0) →
        (∀ e ∈ (TUNConfigurator_configure junk name address prefixLen
            (Kernel.boot plan n errno0)).2.log,
          e.isIoctl .SIOCSLIFADDR = false ∧ e.isIoctl .I_LINK = false) ∧
        ∃ err, (TUNConfigurator_configure junk name address prefixLen
            (Kernel.boot plan n errno0)).1 =
          .raised (some "ioctl(SIOCSLIFNETMASK) (setting netmask) [%s]") err) ∧
      ((∃ e ∈ (TUNConfigurator_configure junk name address prefixLen
            (Kernel.boot plan n errno0)).2.log, e.isIoctl .SIOCSLIFADDR = true ∧ e.ret < 0) →
        (∀ e ∈ (TUNConfigurator_configure junk name address prefixLen
            (Kernel.boot plan n errno0)).2.log,
          e.isFailure = true → e.isIoctl .SIOCSLIFADDR = true) ∧
        ∃ err, (TUNConfigurator_configure junk name address prefixLen
            (Kernel.boot plan n errno0)).1 =
          .raised (some "ioctl(SIOCSLIFADDR) (setting ipv6 address) [%s]") err) ∧
      "ioctl(SIOCSLIFNETMASK) (setting netmask) [%s]" ≠
        "ioctl(SIOCSLIFADDR) (setting ipv6 address) [%s]" := by
  obtain ⟨h, c, e1, e2, e3, e4, -, hc, hrun⟩ :=
    configure_cases junk name address prefixLen (Kernel.boot plan n errno0)
  have hb : (Kernel.boot plan n errno0).log = [] := rfl
  rw [hb] at hrun
  simp only [List.nil_append] at hrun
  have hA := acquired_not_assign h c e1 e2 e3 e4 _ hc
  refine ⟨?_, ?_, ?_, by decide⟩
  · have hoa : OnlyAfter (fun e => e.isIoctl .SIOCSLIFNETMASK && decide (0 ≤ e.ret))
        (Event.isIoctl .SIOCSLIFADDR)
        (TUNConfigurator_configure junk name address prefixLen
          (Kernel.boot plan n errno0)).2.log := by
      rcases hrun with ⟨-, err, cl, hu, -, hlog⟩ |
        ⟨-, ifr, status, mid, hprov, ⟨-, -, hlog⟩ | ⟨m, err, cl, -, hu, -, hlog⟩⟩ <;> rw [hlog]
      · exact onlyAfter_append_left _ _ _ _ (fun e he => (hA e he).2.1)
          (onlyAfter_append_right _ _ [] cl trivial
            (fun e he => (unwound_not_assign hu e he).2.1))
      · exact onlyAfter_append_left _ _ _ _ (fun e he => (hA e he).2.1)
          (provision_assign hprov).1
      · exact onlyAfter_append_left _ _ _ _ (fun e he => (hA e he).2.1)
          (onlyAfter_append_right _ _ mid cl (provision_assign hprov).1
            (fun e he => (unwound_not_assign hu e he).2.1))
    intro i e he hq
    have hpq : ∀ x : Event,
        (x.isIoctl .SIOCSLIFNETMASK && decide (0 ≤ x.ret)) = true →
          x.isIoctl .SIOCSLIFADDR = false := by
      intro x hx
      rcases x with ⟨call, ret, errno⟩
      cases call <;> simp_all [Event.isIoctl]
    obtain ⟨j, e', hj, hje, hp⟩ := onlyAfter_index _ _ hpq _ hoa i e he hq
    simp only [Bool.and_eq_true, decide_eq_true_eq] at hp
    exact ⟨j, e', hj, hje, hp.1, hp.2⟩
  · rintro ⟨e, he, hn, hneg⟩
    rcases hrun with ⟨-, err, cl, hu, -, hlog⟩ |
      ⟨-, ifr, status, mid, hprov, ⟨rfl, -, hlog⟩ | ⟨m, err, cl, rfl, hu, hres, hlog⟩⟩ <;>
      rw [hlog] at he ⊢
    · rcases List.mem_append.mp he with he | he
      · rw [(hA e he).1] at hn; cases hn
      · rw [(unwound_not_assign hu e he).1] at hn; cases hn
    · rcases List.mem_append.mp he with he | he
      · rw [(hA e he).1] at hn; cases hn
      · cases ((provision_assign hprov).2.1 ⟨e, he, hn, hneg⟩).2
    · rcases List.mem_append.mp he with he | he
      · rw [(hA e he).1] at hn; cases hn
      · rcases List.mem_append.mp he with he | he
        · obtain ⟨hm, hs⟩ := (provision_assign hprov).2.1 ⟨e, he, hn, hneg⟩
          cases hs
          refine ⟨fun x hx => ?_, err, hres⟩
          rcases List.mem_append.mp hx with hx | hx
          · exact (hA x hx).2
          · rcases List.mem_append.mp hx with hx | hx
            · exact hm x hx
            · exact ⟨(unwound_not_assign hu x hx).2.1, (unwound_not_assign hu x hx).2.2.1⟩
        · rw [(unwound_not_assign hu e he).1] at hn; cases hn
  · rintro ⟨e, he, hn, hneg⟩
    rcases hrun with ⟨-, err, cl, hu, -, hlog⟩ |
      ⟨hok, ifr, status, mid, hprov, ⟨rfl, -, hlog⟩ | ⟨m, err, cl, rfl, hu, hres, hlog⟩⟩ <;>
      rw [hlog] at he ⊢
    · rcases List.mem_append.mp he with he | he
      · rw [(hA e he).2.1] at hn; cases hn
      · rw [(unwound_not_assign hu e he).2.1] at hn; cases hn
    · rcases List.mem_append.mp he with he | he
      · rw [(hA e he).2.1] at hn; cases hn
      · cases ((provision_assign hprov).2.2 ⟨e, he, hn, hneg⟩).2
    · rcases List.mem_append.mp he with he | he
      · rw [(hA e he).2.1] at hn; cases hn
      · rcases List.mem_append.mp he with he | he
        · obtain ⟨hm, hs⟩ := (provision_assign hprov).2.2 ⟨e, he, hn, hneg⟩
          cases hs
          refine ⟨fun x hx hf => ?_, err, hres⟩
          rcases List.mem_append.mp hx with hx | hx
          · rw [acquired_not_failure h c e1 e2 e3 e4 hok x hx] at hf; cases hf
          · rcases List.mem_append.mp hx with hx | hx
            · exact hm x hx hf
            · rw [(unwound_not_assign hu x hx).2.2.2] at hf; cases hf
        · rw [(unwound_not_assign hu e he).2.1] at hn; cases hn

/-- Witness for C8: with an address present, the run in which only the netmask `ioctl` (call
number 7) fails raises the netmask message and issues neither the address nor the link
`ioctl`; the run in which only the address `ioctl` (call number 8) fails raises the address
message. -/
theorem configure_netmask_before_address_witness :
    ((∃ e ∈ (TUNConfigurator_configure (List.replicate 16 0) none
            (some [0, 0, 0, 0, 0, 0, 0, 0, 0, 0, 0, 0, 0, 0, 0, 1]) 64
            (Kernel.boot (Plan.failAt 7 22) 3 0)).2.log,
          e.isIoctl .SIOCSLIFNETMASK = true ∧ e.ret < 0) ∧
      (∀ e ∈ (TUNConfigurator_configure (List.replicate 16 0) none
            (some [0, 0, 0, 0, 0, 0, 0, 0, 0, 0, 0, 0, 0, 0, 0, 1]) 64
            (Kernel.boot (Plan.failAt 7 22) 3 0)).2.log,
          e.isIoctl .SIOCSLIFADDR = false ∧ e.isIoctl .I_LINK = false) ∧
      ∃ err, (TUNConfigurator_configure (List.replicate 16 0) none
            (some [0, 0, 0, 0, 0, 0, 0, 0, 0, 0, 0, 0, 0, 0, 0, 1]) 64
            (Kernel.boot (Plan.failAt 7 22) 3 0)).1 =
          .raised (some "ioctl(SIOCSLIFNETMASK) (setting netmask) [%s]") err) ∧
    ((∃ e ∈ (TUNConfigurator_configure (List.replicate 16 0) none
            (some [0, 0, 0, 0, 0, 0, 0, 0, 0, 0, 0, 0, 0, 0, 0, 1]) 64
            (Kernel.boot (Plan.failAt 8 22) 3 0)).2.log,
          e.isIoctl .SIOCSLIFADDR = true ∧ e.ret < 0) ∧
      ∃ err, (TUNConfigurator_configure (List.replicate 16 0) none
            (some [0, 0, 0, 0, 0, 0, 0, 0, 0, 0, 0, 0, 0, 0, 0, 1]) 64
            (Kernel.boot (Plan.failAt 8 22) 3 0)).1 =
          .raised (some "ioctl(SIOCSLIFADDR) (setting ipv6 address) [%s]") err) :=
  ⟨⟨by decide,
      (configure_netmask_before_address (Plan.failAt 7 22) 3 0 (List.replicate 16 0) none
        (some [0, 0, 0, 0, 0, 0, 0, 0, 0, 0, 0, 0, 0, 0, 0, 1]) 64).2.1 (by decide)⟩,
    ⟨by decide,
      ((configure_netmask_before_address (Plan.failAt 8 22) 3 0 (List.replicate 16 0) none
        (some [0, 0, 0, 0, 0, 0, 0, 0, 0, 0, 0, 0, 0, 0, 0, 1]) 64).2.2.1 (by decide)).2⟩⟩

/-- Counterexample to C9 as stated. When the control open fails (with every later call
allowed to succeed), the binding `ioctl` is still issued, on descriptor -1, and `/dev/ip6`
and `/dev/tun` are still opened: three more `open`/`ioctl` calls follow the first failure. -/
theorem configure_continues_after_control_open_fails :
    (TUNConfigurator_configure [] none none 64
        (Kernel.boot (Plan.failAt 0 2) 3 0)).2.log.map (fun e => (e.call, e.ret)) =
      [(.sys_open "/dev/tun", -1), (.sys_ioctl (-1) .TUNNEWPPA (.int (-1)), -1),
       (.sys_open "/dev/ip6", 3), (.sys_open "/dev/tun", 4),
       (.sys_close (-1), -1), (.sys_close 3, 0), (.sys_close 4, 0)] ∧
    ¬ (∀ (i j : Nat) (ei ej : Event), i < j →
        (TUNConfigurator_configure [] none none 64
          (Kernel.boot (Plan.failAt 0 2) 3 0)).2.log[i]? = some ei →
        (TUNConfigurator_configure [] none none 64
          (Kernel.boot (Plan.failAt 0 2) 3 0)).2.log[j]? = some ej →
        ei.isFailure = true → ej.isClose = true) := by
  refine ⟨by decide, fun hall => ?_⟩
  have := hall 0 2 { call := .sys_open "/dev/tun", ret := -1, errno := 2 }
    { call := .sys_open "/dev/ip6", ret := 3, errno := 9 } (by decide) (by decide) (by decide)
    (by decide)
  revert this
  decide

/-- C9, amended. In every run the log starts with the four acquisition calls, in this order
and whatever their outcomes: the open of `/dev/tun`, the binding `ioctl` on the descriptor
that open returned (-1 if it failed), the open of `/dev/ip6` and the second open of
`/dev/tun`. If any of the four failed, everything after them is a `close`. In what follows the
four, no `open` or `ioctl` comes after a failed `open` or `ioctl`: only `close` calls do. -/
theorem configure_abort_discipline (plan : Nat → Outcome) (n errno0 : Nat)
    (junk : List Nat) (name : Option String) (address : Option (List Nat)) (prefixLen : Int) :
    ∃ e1 e2 e3 e4 rest,
      (TUNConfigurator_configure junk name address prefixLen
        (Kernel.boot plan n errno0)).2.log = e1 :: e2 :: e3 :: e4 :: rest ∧
      e1.call = .sys_open "/dev/tun" ∧
      (∃ arg, e2.call = .sys_ioctl e1.ret .TUNSETPPA arg ∨
        e2.call = .sys_ioctl e1.ret .TUNNEWPPA arg) ∧
      e3.call = .sys_open "/dev/ip6" ∧ e4.call = .sys_open "/dev/tun" ∧
      ((e1.isFailure = true ∨ e2.isFailure = true ∨ e3.isFailure = true ∨
          e4.isFailure = true) → ∀ e ∈ rest, e.isClose = true) ∧
      (∀ (i j : Nat) (ei ej : Event), i < j → rest[i]? = some ei → rest[j]? = some ej →
        ei.isFailure = true → ej.isClose = true) := by
  obtain ⟨h, c, e1, e2, e3, e4, -, hc, hrun⟩ :=
    configure_cases junk name address prefixLen (Kernel.boot plan n errno0)
  have hb : (Kernel.boot plan n errno0).log = [] := rfl
  rw [hb] at hrun
  simp only [List.nil_append] at hrun
  have hc' : ∃ arg, c = .sys_ioctl h.tunFd .TUNSETPPA arg ∨
      c = .sys_ioctl h.tunFd .TUNNEWPPA arg := by
    rcases hc with ⟨rfl, -⟩ | ⟨rfl, -⟩
    · exact ⟨_, Or.inl rfl⟩
    · exact ⟨_, Or.inr rfl⟩
  have hnf : 0 ≤ h.tunFd ∧ 0 ≤ h.ipFd ∧ 0 ≤ h.ppa ∧ 0 ≤ h.tunFd2 →
      ¬ (Event.isFailure { call := .sys_open "/dev/tun", ret := h.tunFd, errno := e1 } = true ∨
        Event.isFailure { call := c, ret := h.ppa, errno := e2 } = true ∨
        Event.isFailure { call := .sys_open "/dev/ip6", ret := h.ipFd, errno := e3 } = true ∨
        Event.isFailure { call := .sys_open "/dev/tun", ret := h.tunFd2, errno := e4 } = true) := by
    intro hok
    simp only [Event.isFailure, Bool.and_eq_true, decide_eq_true_eq]
    omega
  rcases hrun with ⟨hfail, err', cl, hu, hres, hlog⟩ |
      ⟨hok, ifr, status, mid, hprov, ⟨rfl, hres, hlog⟩ | ⟨m, err', cl, rfl, hu, hres, hlog⟩⟩
  · refine ⟨_, _, _, _, cl, hlog, rfl, hc', rfl, rfl, fun _ => (unwound_closes hu).2.2, ?_⟩
    apply abortsAtFirstFailure_index
    obtain ⟨r1, r2, r3, f1, f2, f3, rfl⟩ := hu
    simp [AbortsAtFirstFailure, Event.isFailure, Event.isOpenOrIoctl]
  · refine ⟨_, _, _, _, mid, hlog, rfl, hc', rfl, rfl, fun hf => absurd hf (hnf hok), ?_⟩
    apply abortsAtFirstFailure_index
    cases hprov <;>
      simp [AbortsAtFirstFailure, Event.isFailure, Event.isOpenOrIoctl, ClosesOnly] <;> omega
  · refine ⟨_, _, _, _, mid ++ cl, hlog, rfl, hc', rfl, rfl, fun hf => absurd hf (hnf hok), ?_⟩
    apply abortsAtFirstFailure_index
    obtain ⟨r1, r2, r3, f1, f2, f3, rfl⟩ := hu
    cases hprov <;>
      simp [AbortsAtFirstFailure, Event.isFailure, Event.isOpenOrIoctl, ClosesOnly,
        Event.isClose] <;> omega

/-- C10. For every integer prefix and every buffer, `maskForPrefix` returns, and each
evaluation of `0xff << (i + 8 - prefix)` it makes has a shift amount between 1 and 8: the
shift of the `int` 0xff is defined, with value `0xff * 2^amount`. When the amount is 8 the
byte written is 0x00. -/
theorem maskForPrefix_shift_amounts (mask : List Nat) (pfx : Int) :
    ∃ run, maskForPrefixRun mask pfx = .ok run ∧
      ∀ e ∈ run.shifts, e.amount = e.i + 8 - pfx ∧ 1 ≤ e.amount ∧ e.amount ≤ 8 ∧
        shiftLeftInt 0xff e.amount = some (0xff * 2 ^ e.amount.toNat) ∧
        (e.amount = 8 → e.written = 0x00) := by
  rcases lt_or_le pfx 0 with h0 | h0
  · exact ⟨_, maskForPrefixRun_neg mask pfx h0, by simp⟩
  rcases le_or_lt 16 pfx with h16 | h16
  · exact ⟨_, maskForPrefixRun_large mask pfx h16, by simp⟩
  interval_cases pfx <;> refine ⟨_, rfl, ?_⟩ <;> intro e he <;>
    simp only [List.nil_append, List.mem_singleton] at he <;> subst he <;> decide

/-- Witness for C10: with prefix 8 the shift is evaluated once, at `i = 8`, with amount 8,
and the byte written is 0x00. -/
theorem maskForPrefix_shift_amounts_witness :
    maskForPrefixRun (List.replicate 16 0xaa) 8 =
        .ok { mask := [0xff, 0xaa, 0xaa, 0xaa, 0xaa, 0xaa, 0xaa, 0xaa,
                       0x00, 0xaa, 0xaa, 0xaa, 0xaa, 0xaa, 0xaa, 0xaa],
              shifts := [{ i := 8, amount := 8, written := 0x00 }] } ∧
      ∃ run, maskForPrefixRun (List.replicate 16 0xaa) 8 = .ok run ∧
        ∀ e ∈ run.shifts, e.amount = e.i + 8 - 8 ∧ 1 ≤ e.amount ∧ e.amount ≤ 8 ∧
          shiftLeftInt 0xff e.amount = some (0xff * 2 ^ e.amount.toNat) ∧
          (e.amount = 8 → e.written = 0x00) :=
  ⟨rfl, maskForPrefix_shift_amounts (List.replicate 16 0xaa) 8⟩

end TUNConfigurator
